import Mathlib

/-!
Verification of the FastTransfer / ICS (FX/ICS) module `oxcfxics.c` of the
OpenChange EMSMDB server.

The development shallowly embeds the module's core routines:

* the ID codec (`oxcfxics_source_key_from_fmid`, `oxcfxics_fmid_from_source_key`);
* the tagged property serializer (`oxcfxics_ndr_push_simple_data`,
  `oxcfxics_ndr_push_properties`) together with the cut-mark sidecar;
* the contents-mode sync producer
  (`oxcfxics_push_messageChange`,
  `oxcfxics_prepare_synccontext_with_messageChange`);
* the stream chunker of `EcDoRpc_RopFastTransferSourceGetBuffer`;
* the state-upload and import Rop handlers
  (`EcDoRpc_RopSyncUploadStateStreamBegin/Continue/End`,
  `EcDoRpc_RopSyncImportMessageChange`, `EcDoRpc_RopSyncImportDeletes`).

Machine integers are modelled as `Nat` with explicit `% 2 ^ w` truncation at
the places where the C types force it (the chunker's `uint16_t` locals, the
16-bit replica id, the 64-bit FMID).  Byte buffers are `List Nat` whose
elements are byte values.  External collaborators that oxcfxics.c only calls
through an interface (the replica registry `emsmdbp_replid_to_guid` /
`emsmdbp_guid_to_replid` of openchangedb, the named-property registry,
`IDSET_parse`, `IDSET_merge_idsets`, `RAWIDSET_convert_to_idset`,
`ndr_push_idset`, `exchange_globcnt` and the mapistore store itself) are
passed in as explicit function parameters or input data, exactly as §6 of the
specification lists them.  Code paths that call `abort()` or perform
undefined behaviour (reads through mismatched casts, use of a failed
out-parameter) are modelled as `Option`-failure (`none` / `.crash`).
-/

/-! ### Little-endian byte encoders (libndr scalar pushes, NOALIGN mode) -/

/-- Bytes of a 16-bit scalar pushed little-endian (`ndr_push_uint16`). -/
def u16le (n : Nat) : List Nat := [n % 256, n / 256 % 256]

/-- Bytes of a 32-bit scalar pushed little-endian (`ndr_push_uint32`). -/
def u32le (n : Nat) : List Nat :=
  [n % 256, n / 256 % 256, n / 65536 % 256, n / 16777216 % 256]

/-- Bytes of a 64-bit scalar pushed little-endian (`ndr_push_dlong`). -/
def u64le (n : Nat) : List Nat :=
  u32le (n % 4294967296) ++ u32le (n / 4294967296)

theorem u16le_length (n : Nat) : (u16le n).length = 2 := rfl

theorem u32le_length (n : Nat) : (u32le n).length = 4 := rfl

theorem u64le_length (n : Nat) : (u64le n).length = 8 := rfl

/-! ### The replica registry

`oxcfxics.c` resolves 16-bit replica ids to 16-byte replica GUIDs (and back)
through the openchangedb calls `emsmdbp_replid_to_guid` and
`emsmdbp_guid_to_replid`; both are external to the module (§6 of the spec:
`replid_to_guid(id) → guid`, `guid_to_replid(guid) → id`).  A GUID is its
16-byte wire image. -/

structure ReplicaRegistry where
  replidToGuid : Nat → Option (List Nat)
  guidToReplid : List Nat → Option Nat

/-! ### ID codec (`oxcfxics.c` lines 212–268) -/

/-- `oxcfxics_fmid_from_source_key` (oxcfxics.c:212).  Looks up the replica id
of the leading 16 bytes; on success reads the 6 tail bytes little-endian into
`fmid` (the C loop `fmid |= bytes[i] * base; base <<= 8`), shifts by 16 and
ors in the replica id.  The C function performs no length validation on
`source_key`; bytes read past the end of a short buffer are modelled by
`getD _ 0`.  Failure of the GUID lookup yields `MAPISTORE_ERROR`, modelled as
`none`. -/
def oxcfxics_fmid_from_source_key (reg : ReplicaRegistry) (source_key : List Nat) :
    Option Nat :=
  match reg.guidToReplid (source_key.take 16) with
  | none => none
  | some replid =>
    let bytes := source_key.drop 16
    let fmid := (List.range 6).foldl
      (fun acc i => acc ||| (bytes.getD i 0 % 256) * 256 ^ i) 0
    some ((fmid <<< 16) ||| replid % 65536)

/-- `oxcfxics_source_key_from_fmid` (oxcfxics.c:237).  `replid = fmid & 0xffff`
is resolved to a GUID (failure → `MAPISTORE_ERROR`, modelled `none`);
`gc = fmid >> 16`; the 22-byte key is the GUID followed by the 6 low bytes of
`gc` little-endian (the C loop `bytes[i] = gc & 0xff; gc >>= 8`). -/
def oxcfxics_source_key_from_fmid (reg : ReplicaRegistry) (fmid : Nat) :
    Option (List Nat) :=
  let replid := fmid % 65536
  match reg.replidToGuid replid with
  | none => none
  | some guid =>
    let gc := fmid >>> 16
    some (guid ++ (List.range 6).map (fun i => gc / 256 ^ i % 256))

/-- `oxcfxics_make_xid` (oxcfxics.c:270) with `idlength ≤ 8`:
`guid || id_le[0..idlength)`. -/
def oxcfxics_make_xid (replica_guid : List Nat) (id : Nat) (idlength : Nat) :
    Option (List Nat) :=
  if idlength > 8 then none
  else some (replica_guid ++ (List.range idlength).map (fun i => id / 256 ^ i % 256))

/-- `oxcfxics_make_gid` (oxcfxics.c:303): `make_xid` with a 6-byte id. -/
def oxcfxics_make_gid (replica_guid : List Nat) (id : Nat) : Option (List Nat) :=
  oxcfxics_make_xid replica_guid id 6

/-! Helper lemmas for the codec round trip. -/

theorem lor_of_lt_two_pow {a : Nat} (b k : Nat) (h : a < 2 ^ k) :
    a ||| b * 2 ^ k = a + b * 2 ^ k := by
  rw [Nat.lor_comm, Nat.mul_comm b (2 ^ k), ← Nat.mul_add_lt_is_or h b]
  omega

/-- The 6-byte little-endian read of the codec recovers any `gc < 2^48`. -/
theorem gcRead_of_gcBytes {gc : Nat} (h : gc < 2 ^ 48) :
    (List.range 6).foldl
      (fun acc i =>
        acc ||| (((List.range 6).map (fun i => gc / 256 ^ i % 256)).getD i 0 % 256) * 256 ^ i)
      0 = gc := by
  simp only [List.range_succ, List.range_zero, List.map_append, List.map_cons,
    List.map_nil, List.foldl_append, List.foldl_cons, List.foldl_nil,
    List.nil_append, List.cons_append, List.getD_cons_zero, List.getD_cons_succ,
    Nat.zero_or, Nat.mod_mod]
  norm_num
  rw [show (65536 : Nat) = 2 ^ 16 by norm_num, show (16777216 : Nat) = 2 ^ 24 by norm_num,
    show (4294967296 : Nat) = 2 ^ 32 by norm_num,
    show (1099511627776 : Nat) = 2 ^ 40 by norm_num,
    show (256 : Nat) = 2 ^ 8 by norm_num]
  rw [lor_of_lt_two_pow _ 8 (by omega)]
  rw [lor_of_lt_two_pow _ 16 (by omega)]
  rw [lor_of_lt_two_pow _ 24 (by omega)]
  rw [lor_of_lt_two_pow _ 32 (by omega)]
  rw [lor_of_lt_two_pow _ 40 (by omega)]
  omega

/-- Claim C1: for every 64-bit FMID `f` whose low 16 bits resolve through the
replica registry to a 16-byte GUID that maps back to the same replica id,
`oxcfxics_source_key_from_fmid` produces a source key that
`oxcfxics_fmid_from_source_key` converts back to exactly `f`. -/
theorem fmid_source_key_roundtrip (reg : ReplicaRegistry) (f : Nat)
    (g : List Nat) (hf : f < 2 ^ 64)
    (hguid : reg.replidToGuid (f % 65536) = some g)
    (hlen : g.length = 16) (hback : reg.guidToReplid g = some (f % 65536)) :
    ∃ sk, oxcfxics_source_key_from_fmid reg f = some sk ∧
      oxcfxics_fmid_from_source_key reg sk = some f := by
  refine ⟨g ++ (List.range 6).map (fun i => (f >>> 16) / 256 ^ i % 256), ?_, ?_⟩
  · simp only [oxcfxics_source_key_from_fmid, hguid]
  · have hmaplen : ((List.range 6).map (fun i => (f >>> 16) / 256 ^ i % 256)).length = 6 := by
      simp
    have htake : (g ++ (List.range 6).map (fun i => (f >>> 16) / 256 ^ i % 256)).take 16 = g := by
      rw [List.take_append_of_le_length (by omega), List.take_of_length_le (by omega)]
    have hdrop : (g ++ (List.range 6).map (fun i => (f >>> 16) / 256 ^ i % 256)).drop 16 =
        (List.range 6).map (fun i => (f >>> 16) / 256 ^ i % 256) := by
      rw [List.drop_append_of_le_length (by omega), List.drop_of_length_le (by omega),
        List.nil_append]
    have hgc : f >>> 16 < 2 ^ 48 := by
      rw [Nat.shiftRight_eq_div_pow]
      omega
    simp only [oxcfxics_fmid_from_source_key, htake, hback, hdrop]
    rw [gcRead_of_gcBytes hgc]
    have : (f >>> 16) <<< 16 ||| f % 65536 % 65536 = f := by
      rw [Nat.shiftRight_eq_div_pow, Nat.shiftLeft_eq, Nat.mod_mod]
      rw [show ((2 : Nat) ^ 16) = 65536 by norm_num]
      rw [show (65536 : Nat) = 2 ^ 16 by norm_num]
      rw [Nat.mul_comm (f / 2 ^ 16) (2 ^ 16),
        ← Nat.mul_add_lt_is_or (Nat.mod_lt _ (by norm_num)) (f / 2 ^ 16)]
      omega
    rw [this]

/-- A concrete replica registry used by the witnesses: replica id 1 maps to
the 16-byte GUID `[7, 7, …, 7]`. -/
def regOne : ReplicaRegistry where
  replidToGuid := fun i => if i = 1 then some (List.replicate 16 7) else none
  guidToReplid := fun g => if g = List.replicate 16 7 then some 1 else none

/-- Witness for C1 at the concrete FMID `0x50001` (replica 1, counter 5). -/
theorem fmid_source_key_roundtrip_witness :
    ∃ sk, oxcfxics_source_key_from_fmid regOne 327681 = some sk ∧
      oxcfxics_fmid_from_source_key regOne sk = some 327681 :=
  fmid_source_key_roundtrip regOne 327681 (List.replicate 16 7)
    (by norm_num) (by decide) (by decide) (by decide)

/-- Claim C7, counterexample: `oxcfxics_fmid_from_source_key` performs no
length validation.  On a 30-byte source key whose GUID prefix is known it
succeeds (the claim requires a failure for any length other than 22). -/
theorem fmid_from_source_key_no_length_check :
    (oxcfxics_fmid_from_source_key regOne
        (List.replicate 16 7 ++ [5, 0, 0, 0, 0, 0] ++ List.replicate 8 9)).isSome = true
      ∧ (List.replicate 16 7 ++ [5, 0, 0, 0, 0, 0] ++ List.replicate 8 9).length ≠ 22 := by
  constructor
  · decide
  · decide

/-- Claim C7, amended: `oxcfxics_fmid_from_source_key` does not validate the
input length.  It fails (with `MAPISTORE_ERROR`, surfaced by its callers as
`NotFound`) exactly when the 16-byte GUID prefix is unknown to the replica
registry, and otherwise returns `(gc <<< 16) ||| replica_id` where `gc` is the
little-endian value of bytes 16–21. -/
theorem fmid_from_source_key_spec (reg : ReplicaRegistry) (sk : List Nat)
    (b0 b1 b2 b3 b4 b5 : Nat) (replid : Nat)
    (hmap : reg.guidToReplid (sk.take 16) = some replid)
    (htail : sk.drop 16 = [b0, b1, b2, b3, b4, b5])
    (hb : b0 < 256 ∧ b1 < 256 ∧ b2 < 256 ∧ b3 < 256 ∧ b4 < 256 ∧ b5 < 256) :
    oxcfxics_fmid_from_source_key reg sk =
      some (((b0 + b1 * 256 + b2 * 65536 + b3 * 16777216 + b4 * 4294967296 +
        b5 * 1099511627776) <<< 16) ||| replid % 65536) ∧
    (∀ sk', reg.guidToReplid (sk'.take 16) = none →
      oxcfxics_fmid_from_source_key reg sk' = none) := by
  obtain ⟨h0, h1, h2, h3, h4, h5⟩ := hb
  constructor
  · simp only [oxcfxics_fmid_from_source_key, hmap, htail]
    simp only [List.range_succ, List.range_zero, List.nil_append, List.cons_append,
      List.foldl_append, List.foldl_cons, List.foldl_nil,
      List.getD_cons_zero, List.getD_cons_succ, Nat.zero_or]
    rw [Nat.mod_eq_of_lt h0, Nat.mod_eq_of_lt h1, Nat.mod_eq_of_lt h2,
      Nat.mod_eq_of_lt h3, Nat.mod_eq_of_lt h4, Nat.mod_eq_of_lt h5]
    norm_num
    rw [show (65536 : Nat) = 2 ^ 16 by norm_num, show (16777216 : Nat) = 2 ^ 24 by norm_num,
      show (4294967296 : Nat) = 2 ^ 32 by norm_num,
      show (1099511627776 : Nat) = 2 ^ 40 by norm_num,
      show (256 : Nat) = 2 ^ 8 by norm_num]
    rw [lor_of_lt_two_pow _ 8 (by omega)]
    rw [lor_of_lt_two_pow _ 16 (by omega)]
    rw [lor_of_lt_two_pow _ 24 (by omega)]
    rw [lor_of_lt_two_pow _ 32 (by omega)]
    rw [lor_of_lt_two_pow _ 40 (by omega)]
  · intro sk' hnone
    simp only [oxcfxics_fmid_from_source_key, hnone]

/-- Witness for the amended C7 at a concrete 22-byte key on `regOne`. -/
theorem fmid_from_source_key_spec_witness :
    oxcfxics_fmid_from_source_key regOne
        (List.replicate 16 7 ++ [5, 1, 0, 0, 0, 0]) =
      some (((5 + 1 * 256 + 0 * 65536 + 0 * 16777216 + 0 * 4294967296 +
        0 * 1099511627776) <<< 16) ||| 1 % 65536) ∧
    (∀ sk', regOne.guidToReplid (sk'.take 16) = none →
      oxcfxics_fmid_from_source_key regOne sk' = none) :=
  fmid_from_source_key_spec regOne (List.replicate 16 7 ++ [5, 1, 0, 0, 0, 0])
    5 1 0 0 0 0 1 (by decide) (by decide)
    (by norm_num)

/-! ### Stream chunker (`EcDoRpc_RopFastTransferSourceGetBuffer`, oxcfxics.c 1024–1169)

The chunker state mirrors the fields of `emsmdbp_object_ftcontext` /
`emsmdbp_object_synccontext` that the handler touches: the frozen stream
buffer, the read cursor `stream.position`, the cut-marks array,
`next_cutmark_ptr` (initialised to 0 by `talloc_zero` and — as in the source —
never written back), `steps` and `total_steps`.  The handler's local
variables `buffer_size`, `cutbuffer_size`, `cutbuffer_pos`, `mark_ptr` and
`max_cutmark` are `uint16_t` in the source; the corresponding truncations are
modelled with `% 65536`. -/

structure FtStreamCtx where
  buffer : List Nat
  position : Nat
  cutmarks : List Nat
  next_cutmark_ptr : Nat
  steps : Nat
  total_steps : Nat
deriving Repr, DecidableEq

structure GetBufferReply where
  transferBuffer : List Nat
  totalStepCount : Nat
  inProgressCount : Nat
  statusDone : Bool
deriving Repr, DecidableEq

/-- The 0xBABE substitution at oxcfxics.c:1074: a requested size of 0xBABE
stands for the maximum buffer size of the request. -/
def resolveBufferSize (reqSize maxSize : Nat) : Nat :=
  if reqSize = 0xBABE then maxSize else reqSize

/-- The cut-mark scan loop (oxcfxics.c:1092–1095): starting from the current
mark pointer, while the mark is not the sentinel `0xffffffff` and is below
`max_cutmark`, remember it (truncated into the `uint16_t` local
`cutbuffer_pos`) and advance.  The C loop reads past the end of the array if
no sentinel terminates it; the model stops at the end of the list (every
produced cut-mark array is sentinel-terminated). -/
def scanCutmarks : List Nat → Nat → Nat → Nat
  | [], _, cur => cur
  | m :: ms, limit, cur =>
    if m ≠ 0xffffffff ∧ m < limit then scanCutmarks ms limit (m % 65536) else cur

/-- `emsmdbp_stream_read_buffer` — external to the module.  Modelled from the
spec (§4.4): return the next `size` bytes from the cursor, clamped to the end
of the buffer, and advance the cursor by the number of bytes returned. -/
def emsmdbp_stream_read_buffer (buffer : List Nat) (position size : Nat) :
    List Nat × Nat :=
  let chunk := (buffer.drop position).take size
  (chunk, position + chunk.length)

/-- The chunk-size snapping computation (oxcfxics.c:1088–1101 resp.
1129–1142): if a full buffer would not exhaust the stream, scan the
cut-marks and, when the snap-back guard holds, shrink the requested size to
the distance to the last cut-mark below `position + buffer_size`.  The
locals are `uint16_t`, hence the `% 65536` truncations.  `guardPos` is the
left-hand side of the comparison at oxcfxics.c:1096 resp. 1137 (see
`getBufferBody`). -/
def getBufferSnapSize (ctx : FtStreamCtx) (bufSize guardPos : Nat) : Nat :=
  if ctx.position % 65536 + bufSize < ctx.buffer.length then
    let limit := (ctx.position + bufSize) % 65536
    let cutpos := scanCutmarks (ctx.cutmarks.drop ctx.next_cutmark_ptr) limit
      (ctx.position % 65536)
    if guardPos < cutpos then
      let cutsize := (cutpos - ctx.position) % 65536
      if 0 < cutsize ∧ cutsize < bufSize then cutsize else bufSize
    else bufSize
  else bufSize

/-- Body shared by the `EMSMDBP_OBJECT_FTCONTEXT` (oxcfxics.c:1086–1113) and
`EMSMDBP_OBJECT_SYNCCONTEXT` (oxcfxics.c:1127–1154) branches of
`EcDoRpc_RopFastTransferSourceGetBuffer`, from the `steps += 1` line on.
`guardPos` is the value compared against `cutbuffer_pos` at oxcfxics.c:1096
resp. 1137; the FTCONTEXT branch passes the context's own `stream.position`,
while the SYNCCONTEXT branch reads `object->object.ftcontext->stream.position`
through the object union — a type-punned access whose value is unspecified,
so the sync step keeps it as a parameter. -/
def getBufferBody (ctx : FtStreamCtx) (bufSize guardPos : Nat) :
    GetBufferReply × FtStreamCtx :=
  let ctx := { ctx with steps := ctx.steps + 1 }
  let size := getBufferSnapSize ctx bufSize guardPos
  let rd := emsmdbp_stream_read_buffer ctx.buffer ctx.position size
  let ctx := { ctx with position := rd.2 }
  let done := ctx.position == ctx.buffer.length
  ({ transferBuffer := rd.1, totalStepCount := ctx.total_steps,
     inProgressCount := if done then ctx.total_steps else ctx.steps,
     statusDone := done }, ctx)

theorem getBufferSnapSize_pos (ctx : FtStreamCtx) (b g : Nat) (hb : 0 < b) :
    0 < getBufferSnapSize ctx b g := by
  simp only [getBufferSnapSize]
  split_ifs with h1 h2 h3 <;> omega

theorem getBufferBody_buffer (ctx : FtStreamCtx) (b g : Nat) :
    ((getBufferBody ctx b g).2.buffer = ctx.buffer) := rfl

theorem getBufferBody_position (ctx : FtStreamCtx) (b g : Nat) :
    (getBufferBody ctx b g).2.position
      = ctx.position + (getBufferBody ctx b g).1.transferBuffer.length := rfl

theorem getBufferBody_total (ctx : FtStreamCtx) (b g : Nat) :
    (getBufferBody ctx b g).2.total_steps = ctx.total_steps
      ∧ (getBufferBody ctx b g).1.totalStepCount = ctx.total_steps := ⟨rfl, rfl⟩

theorem getBufferBody_done (ctx : FtStreamCtx) (b g : Nat) :
    (getBufferBody ctx b g).1.statusDone
      = ((getBufferBody ctx b g).2.position == ctx.buffer.length) := rfl

theorem getBufferBody_steps (ctx : FtStreamCtx) (b g : Nat) :
    (getBufferBody ctx b g).2.steps = ctx.steps + 1 := rfl

theorem getBufferBody_cutmarks (ctx : FtStreamCtx) (b g : Nat) :
    (getBufferBody ctx b g).2.cutmarks = ctx.cutmarks
      ∧ (getBufferBody ctx b g).2.next_cutmark_ptr = ctx.next_cutmark_ptr := ⟨rfl, rfl⟩

theorem take_take_length {α : Type} (l : List α) (n : Nat) :
    l.take n = l.take (l.take n).length := by
  rw [List.take_eq_take]
  simp

theorem getBufferBody_chunk (ctx : FtStreamCtx) (b g : Nat) :
    (getBufferBody ctx b g).1.transferBuffer
      = (ctx.buffer.drop ctx.position).take
          ((getBufferBody ctx b g).2.position - ctx.position) := by
  have hpos := getBufferBody_position ctx b g
  rw [hpos, Nat.add_sub_cancel_left]
  exact take_take_length (ctx.buffer.drop ctx.position) _

theorem getBufferBody_progress (ctx : FtStreamCtx) (b g : Nat) (hb : 0 < b)
    (hlt : ctx.position < ctx.buffer.length) :
    ctx.position < (getBufferBody ctx b g).2.position := by
  rw [getBufferBody_position]
  have hchunk : (getBufferBody ctx b g).1.transferBuffer
      = (ctx.buffer.drop ctx.position).take
          (getBufferSnapSize { ctx with steps := ctx.steps + 1 } b g) := rfl
  have hsp := getBufferSnapSize_pos { ctx with steps := ctx.steps + 1 } b g hb
  have hlen : 0 < (getBufferBody ctx b g).1.transferBuffer.length := by
    rw [hchunk, List.length_take, List.length_drop]
    have hpos : ({ ctx with steps := ctx.steps + 1 } : FtStreamCtx).position
        = ctx.position := rfl
    omega
  omega

/-- The FTCONTEXT case of `EcDoRpc_RopFastTransferSourceGetBuffer`
(oxcfxics.c:1080–1114): while the cursor is 0 the step counters are
(re)initialised with `total_steps = length / buffer_size + 1`; the guard
position of the snap-back test is the context's own cursor. -/
def ftGetBufferStep (ctx : FtStreamCtx) (bufSize : Nat) :
    GetBufferReply × FtStreamCtx :=
  let ctx :=
    if ctx.position = 0 then
      { ctx with steps := 0, total_steps := ctx.buffer.length / bufSize + 1 }
    else ctx
  getBufferBody ctx bufSize ctx.position

/-- The SYNCCONTEXT case (oxcfxics.c:1115–1155) once the stream has been
prepared: no counter re-initialisation; the guard position is the
type-punned `ftcontext` read described at `getBufferBody`. -/
def syncGetBufferStep (ctx : FtStreamCtx) (bufSize guardPos : Nat) :
    GetBufferReply × FtStreamCtx :=
  getBufferBody ctx bufSize guardPos

/-- First `GetBuffer` call on a SYNCCONTEXT (oxcfxics.c:1116–1125): the
stream has just been produced, the cursor is 0 and
`total_steps = length / buffer_size + 1` is computed once. -/
def syncPrepareCounters (ctx : FtStreamCtx) (bufSize : Nat) : FtStreamCtx :=
  { ctx with steps := 0, total_steps := ctx.buffer.length / bufSize + 1 }

/-- A sequence of FTCONTEXT `GetBuffer` calls. -/
def ftGetBufferRun (ctx : FtStreamCtx) : List Nat → List GetBufferReply × FtStreamCtx
  | [] => ([], ctx)
  | s :: rest =>
    let r := ftGetBufferStep ctx s
    let rr := ftGetBufferRun r.2 rest
    (r.1 :: rr.1, rr.2)

/-- A sequence of SYNCCONTEXT `GetBuffer` calls; each call carries the
requested size and the type-punned guard value. -/
def syncGetBufferRun (ctx : FtStreamCtx) :
    List (Nat × Nat) → List GetBufferReply × FtStreamCtx
  | [] => ([], ctx)
  | s :: rest =>
    let r := syncGetBufferStep ctx s.1 s.2
    let rr := syncGetBufferRun r.2 rest
    (r.1 :: rr.1, rr.2)

theorem ftGetBufferStep_eq_body (ctx : FtStreamCtx) (s : Nat) :
    ftGetBufferStep ctx s
      = getBufferBody
          (if ctx.position = 0 then
            { ctx with steps := 0, total_steps := ctx.buffer.length / s + 1 }
          else ctx) s ctx.position := by
  by_cases h : ctx.position = 0 <;> simp [ftGetBufferStep, h]

theorem ftGetBufferStep_buffer (ctx : FtStreamCtx) (s : Nat) :
    (ftGetBufferStep ctx s).2.buffer = ctx.buffer := by
  rw [ftGetBufferStep_eq_body]
  by_cases h : ctx.position = 0 <;> simp [h, getBufferBody_buffer]

theorem ftGetBufferStep_position (ctx : FtStreamCtx) (s : Nat) :
    (ftGetBufferStep ctx s).2.position
      = ctx.position + (ftGetBufferStep ctx s).1.transferBuffer.length := by
  rw [ftGetBufferStep_eq_body]
  by_cases h : ctx.position = 0
  · simp only [h, if_pos]
    have := getBufferBody_position
      { ctx with steps := 0, total_steps := ctx.buffer.length / s + 1 } s ctx.position
    simpa [h] using this
  · simp only [h, if_neg, ite_false]
    exact getBufferBody_position ctx s ctx.position

theorem ftGetBufferStep_chunk (ctx : FtStreamCtx) (s : Nat) :
    (ftGetBufferStep ctx s).1.transferBuffer
      = (ctx.buffer.drop ctx.position).take
          ((ftGetBufferStep ctx s).2.position - ctx.position) := by
  rw [ftGetBufferStep_eq_body]
  by_cases h : ctx.position = 0
  · have := getBufferBody_chunk
      { ctx with steps := 0, total_steps := ctx.buffer.length / s + 1 } s ctx.position
    simp only [h, if_pos] at *
    simpa [h] using this
  · simp only [h, if_neg, ite_false]
    exact getBufferBody_chunk ctx s ctx.position

theorem ftGetBufferStep_done (ctx : FtStreamCtx) (s : Nat) :
    (ftGetBufferStep ctx s).1.statusDone
      = ((ftGetBufferStep ctx s).2.position == ctx.buffer.length) := by
  rw [ftGetBufferStep_eq_body]
  by_cases h : ctx.position = 0
  · have := getBufferBody_done
      { ctx with steps := 0, total_steps := ctx.buffer.length / s + 1 } s ctx.position
    simp only [h, if_pos] at *
    simpa using this
  · simp only [h, if_neg, ite_false]
    exact getBufferBody_done ctx s ctx.position

theorem ftGetBufferStep_progress (ctx : FtStreamCtx) (s : Nat) (hs : 0 < s)
    (hlt : ctx.position < ctx.buffer.length) :
    ctx.position < (ftGetBufferStep ctx s).2.position := by
  rw [ftGetBufferStep_eq_body]
  by_cases h : ctx.position = 0
  · rw [if_pos h]
    exact getBufferBody_progress
      { ctx with steps := 0, total_steps := ctx.buffer.length / s + 1 } s ctx.position hs hlt
  · rw [if_neg h]
    exact getBufferBody_progress ctx s ctx.position hs hlt

theorem ftGetBufferStep_pos_le (ctx : FtStreamCtx) (s : Nat)
    (h : ctx.position ≤ ctx.buffer.length) :
    (ftGetBufferStep ctx s).2.position ≤ ctx.buffer.length := by
  have hc := ftGetBufferStep_chunk ctx s
  have hp := ftGetBufferStep_position ctx s
  have hlen : (ftGetBufferStep ctx s).1.transferBuffer.length
      ≤ ctx.buffer.length - ctx.position := by
    rw [hc]
    calc ((ctx.buffer.drop ctx.position).take _).length
        ≤ (ctx.buffer.drop ctx.position).length := List.length_take_le' _ _
      _ = ctx.buffer.length - ctx.position := List.length_drop _ _
  omega

theorem ftGetBufferRun_concat (sizes : List Nat) (ctx : FtStreamCtx)
    (h : ctx.position ≤ ctx.buffer.length) :
    (ftGetBufferRun ctx sizes).2.buffer = ctx.buffer ∧
    ctx.position ≤ (ftGetBufferRun ctx sizes).2.position ∧
    (ftGetBufferRun ctx sizes).2.position ≤ ctx.buffer.length ∧
    (((ftGetBufferRun ctx sizes).1.map (fun r => r.transferBuffer)).flatten
      = (ctx.buffer.drop ctx.position).take
          ((ftGetBufferRun ctx sizes).2.position - ctx.position)) := by
  induction sizes generalizing ctx with
  | nil =>
    refine ⟨rfl, Nat.le_refl _, h, ?_⟩
    simp [ftGetBufferRun]
  | cons s rest ih =>
    have hb := ftGetBufferStep_buffer ctx s
    have hp := ftGetBufferStep_position ctx s
    have hc := ftGetBufferStep_chunk ctx s
    have hle := ftGetBufferStep_pos_le ctx s h
    have hge : ctx.position ≤ (ftGetBufferStep ctx s).2.position := by omega
    obtain ⟨ihb, ihge, ihle, ihcat⟩ :=
      ih (ftGetBufferStep ctx s).2 (by rw [hb]; exact hle)
    rw [hb] at ihle ihcat
    refine ⟨?_, ?_, ?_, ?_⟩
    · show (ftGetBufferRun (ftGetBufferStep ctx s).2 rest).2.buffer = ctx.buffer
      rw [ihb, hb]
    · show ctx.position ≤ (ftGetBufferRun (ftGetBufferStep ctx s).2 rest).2.position
      omega
    · show (ftGetBufferRun (ftGetBufferStep ctx s).2 rest).2.position ≤ ctx.buffer.length
      omega
    · show ((ftGetBufferStep ctx s).1.transferBuffer ::
          (ftGetBufferRun (ftGetBufferStep ctx s).2 rest).1.map
            (fun r => r.transferBuffer)).flatten
        = (ctx.buffer.drop ctx.position).take
            ((ftGetBufferRun (ftGetBufferStep ctx s).2 rest).2.position - ctx.position)
      rw [List.flatten_cons, ihcat, hc, hp]
      set p1 := ctx.position + (ftGetBufferStep ctx s).1.transferBuffer.length with hp1
      set p2 := (ftGetBufferRun (ftGetBufferStep ctx s).2 rest).2.position with hp2
      have h12 : p1 ≤ p2 := by rw [hp] at ihge; exact ihge
      have : ctx.buffer.drop p1 = (ctx.buffer.drop ctx.position).drop (p1 - ctx.position) := by
        rw [List.drop_drop]
        congr 1
        omega
      rw [this, ← List.take_add]
      congr 1
      omega

theorem syncGetBufferRun_concat (ps : List (Nat × Nat)) (ctx : FtStreamCtx)
    (h : ctx.position ≤ ctx.buffer.length) :
    (syncGetBufferRun ctx ps).2.buffer = ctx.buffer ∧
    ctx.position ≤ (syncGetBufferRun ctx ps).2.position ∧
    (syncGetBufferRun ctx ps).2.position ≤ ctx.buffer.length ∧
    (((syncGetBufferRun ctx ps).1.map (fun r => r.transferBuffer)).flatten
      = (ctx.buffer.drop ctx.position).take
          ((syncGetBufferRun ctx ps).2.position - ctx.position)) := by
  induction ps generalizing ctx with
  | nil =>
    refine ⟨rfl, Nat.le_refl _, h, ?_⟩
    simp [syncGetBufferRun]
  | cons s rest ih =>
    have hb := getBufferBody_buffer ctx s.1 s.2
    have hp := getBufferBody_position ctx s.1 s.2
    have hc := getBufferBody_chunk ctx s.1 s.2
    have hlen : (getBufferBody ctx s.1 s.2).1.transferBuffer.length
        ≤ ctx.buffer.length - ctx.position := by
      rw [hc]
      calc ((ctx.buffer.drop ctx.position).take _).length
          ≤ (ctx.buffer.drop ctx.position).length := List.length_take_le' _ _
        _ = ctx.buffer.length - ctx.position := List.length_drop _ _
    have hle : (getBufferBody ctx s.1 s.2).2.position ≤ ctx.buffer.length := by omega
    have hge : ctx.position ≤ (getBufferBody ctx s.1 s.2).2.position := by omega
    obtain ⟨ihb, ihge, ihle, ihcat⟩ :=
      ih (getBufferBody ctx s.1 s.2).2 (by rw [hb]; exact hle)
    rw [hb] at ihle ihcat
    refine ⟨?_, ?_, ?_, ?_⟩
    · show (syncGetBufferRun (getBufferBody ctx s.1 s.2).2 rest).2.buffer = ctx.buffer
      rw [ihb, hb]
    · show ctx.position ≤ (syncGetBufferRun (getBufferBody ctx s.1 s.2).2 rest).2.position
      omega
    · show (syncGetBufferRun (getBufferBody ctx s.1 s.2).2 rest).2.position
        ≤ ctx.buffer.length
      omega
    · show ((getBufferBody ctx s.1 s.2).1.transferBuffer ::
          (syncGetBufferRun (getBufferBody ctx s.1 s.2).2 rest).1.map
            (fun r => r.transferBuffer)).flatten
        = (ctx.buffer.drop ctx.position).take
            ((syncGetBufferRun (getBufferBody ctx s.1 s.2).2 rest).2.position - ctx.position)
      rw [List.flatten_cons, ihcat, hc, hp]
      have h12 : ctx.position + (getBufferBody ctx s.1 s.2).1.transferBuffer.length
          ≤ (syncGetBufferRun (getBufferBody ctx s.1 s.2).2 rest).2.position := by
        rw [hp] at ihge
        exact ihge
      have hdd : ctx.buffer.drop (ctx.position + (getBufferBody ctx s.1 s.2).1.transferBuffer.length)
          = (ctx.buffer.drop ctx.position).drop
              ((ctx.position + (getBufferBody ctx s.1 s.2).1.transferBuffer.length) - ctx.position) := by
        rw [List.drop_drop]
        congr 1
        omega
      rw [hdd, ← List.take_add]
      congr 1
      omega

theorem ftGetBufferRun_length (sizes : List Nat) (ctx : FtStreamCtx) :
    (ftGetBufferRun ctx sizes).1.length = sizes.length := by
  induction sizes generalizing ctx with
  | nil => rfl
  | cons s rest ih => simpa [ftGetBufferRun] using ih (ftGetBufferStep ctx s).2

theorem syncGetBufferRun_length (ps : List (Nat × Nat)) (ctx : FtStreamCtx) :
    (syncGetBufferRun ctx ps).1.length = ps.length := by
  induction ps generalizing ctx with
  | nil => rfl
  | cons s rest ih => simpa [syncGetBufferRun] using ih (syncGetBufferStep ctx s.1 s.2).2

theorem getLast?_cons_ne_nil {α : Type} (a : α) {l : List α} (h : l ≠ []) :
    (a :: l).getLast? = l.getLast? := by
  cases l with
  | nil => exact absurd rfl h
  | cons b t => exact List.getLast?_cons_cons

theorem ftGetBufferRun_last_done (sizes : List Nat) (ctx : FtStreamCtx)
    (hne : sizes ≠ []) :
    ((ftGetBufferRun ctx sizes).1.getLast?).map (fun r => r.statusDone)
      = some ((ftGetBufferRun ctx sizes).2.position == ctx.buffer.length) := by
  induction sizes generalizing ctx with
  | nil => exact absurd rfl hne
  | cons s rest ih =>
    cases hr : rest with
    | nil =>
      subst hr
      show some ((ftGetBufferStep ctx s).1.statusDone)
        = some ((ftGetBufferRun ctx [s]).2.position == ctx.buffer.length)
      rw [ftGetBufferStep_done]
      rfl
    | cons s' rest' =>
      subst hr
      have hlen : (ftGetBufferRun (ftGetBufferStep ctx s).2 (s' :: rest')).1.length
          = (s' :: rest').length := ftGetBufferRun_length _ _
      have hne' : (ftGetBufferRun (ftGetBufferStep ctx s).2 (s' :: rest')).1 ≠ [] := by
        intro hnil
        rw [hnil] at hlen
        simp at hlen
      show (((ftGetBufferStep ctx s).1 ::
          (ftGetBufferRun (ftGetBufferStep ctx s).2 (s' :: rest')).1).getLast?).map
            (fun r => r.statusDone) = _
      rw [getLast?_cons_ne_nil _ hne']
      rw [ih (ftGetBufferStep ctx s).2 (by simp)]
      rw [ftGetBufferStep_buffer]
      rfl

theorem syncGetBufferRun_last_done (ps : List (Nat × Nat)) (ctx : FtStreamCtx)
    (hne : ps ≠ []) :
    ((syncGetBufferRun ctx ps).1.getLast?).map (fun r => r.statusDone)
      = some ((syncGetBufferRun ctx ps).2.position == ctx.buffer.length) := by
  induction ps generalizing ctx with
  | nil => exact absurd rfl hne
  | cons s rest ih =>
    cases hr : rest with
    | nil =>
      subst hr
      show some ((syncGetBufferStep ctx s.1 s.2).1.statusDone)
        = some ((syncGetBufferRun ctx [s]).2.position == ctx.buffer.length)
      rw [show (syncGetBufferStep ctx s.1 s.2).1.statusDone
        = ((syncGetBufferStep ctx s.1 s.2).2.position == ctx.buffer.length) from
        getBufferBody_done ctx s.1 s.2]
      rfl
    | cons s' rest' =>
      subst hr
      have hlen : (syncGetBufferRun (syncGetBufferStep ctx s.1 s.2).2 (s' :: rest')).1.length
          = (s' :: rest').length := syncGetBufferRun_length _ _
      have hne' : (syncGetBufferRun (syncGetBufferStep ctx s.1 s.2).2 (s' :: rest')).1 ≠ [] := by
        intro hnil
        rw [hnil] at hlen
        simp at hlen
      show (((syncGetBufferStep ctx s.1 s.2).1 ::
          (syncGetBufferRun (syncGetBufferStep ctx s.1 s.2).2 (s' :: rest')).1).getLast?).map
            (fun r => r.statusDone) = _
      rw [getLast?_cons_ne_nil _ hne']
      rw [ih (syncGetBufferStep ctx s.1 s.2).2 (by simp)]
      rw [show (syncGetBufferStep ctx s.1 s.2).2.buffer = ctx.buffer from
        getBufferBody_buffer ctx s.1 s.2]
      rfl

/-- Claim C2: on both FtContexts and SyncContexts with a prepared stream,
every `FastTransferSourceGetBuffer` chunk starts at the byte offset where the
previous chunk ended (each chunk is the slice of the backing buffer between
the cursor before and after the call), the concatenation of the chunks
equals the consumed prefix of the backing stream, and when the last reply
reports `TransferStatus_Done` the concatenation equals the backing buffer
byte-for-byte. -/
theorem fastTransferSourceGetBuffer_chunk_concat
    (ctxF ctxS : FtStreamCtx) (hF : ctxF.position = 0) (hS : ctxS.position = 0)
    (sizes : List Nat) (ps : List (Nat × Nat)) :
    (∀ c : FtStreamCtx, ∀ s : Nat,
      (ftGetBufferStep c s).1.transferBuffer
        = (c.buffer.drop c.position).take ((ftGetBufferStep c s).2.position - c.position)) ∧
    (∀ c : FtStreamCtx, ∀ s g : Nat,
      (syncGetBufferStep c s g).1.transferBuffer
        = (c.buffer.drop c.position).take ((syncGetBufferStep c s g).2.position - c.position)) ∧
    (((ftGetBufferRun ctxF sizes).1.map (fun r => r.transferBuffer)).flatten
      = ctxF.buffer.take (ftGetBufferRun ctxF sizes).2.position) ∧
    (∀ r, (ftGetBufferRun ctxF sizes).1.getLast? = some r → r.statusDone = true →
      ((ftGetBufferRun ctxF sizes).1.map (fun r => r.transferBuffer)).flatten = ctxF.buffer) ∧
    (((syncGetBufferRun ctxS ps).1.map (fun r => r.transferBuffer)).flatten
      = ctxS.buffer.take (syncGetBufferRun ctxS ps).2.position) ∧
    (∀ r, (syncGetBufferRun ctxS ps).1.getLast? = some r → r.statusDone = true →
      ((syncGetBufferRun ctxS ps).1.map (fun r => r.transferBuffer)).flatten = ctxS.buffer) := by
  have hFle : ctxF.position ≤ ctxF.buffer.length := by omega
  have hSle : ctxS.position ≤ ctxS.buffer.length := by omega
  obtain ⟨hFb, hFge, hFle', hFcat⟩ := ftGetBufferRun_concat sizes ctxF hFle
  obtain ⟨hSb, hSge, hSle', hScat⟩ := syncGetBufferRun_concat ps ctxS hSle
  have hFcat' : ((ftGetBufferRun ctxF sizes).1.map (fun r => r.transferBuffer)).flatten
      = ctxF.buffer.take (ftGetBufferRun ctxF sizes).2.position := by
    rw [hFcat, hF, List.drop_zero, Nat.sub_zero]
  have hScat' : ((syncGetBufferRun ctxS ps).1.map (fun r => r.transferBuffer)).flatten
      = ctxS.buffer.take (syncGetBufferRun ctxS ps).2.position := by
    rw [hScat, hS, List.drop_zero, Nat.sub_zero]
  refine ⟨fun c s => ftGetBufferStep_chunk c s,
    fun c s g => getBufferBody_chunk c s g, hFcat', ?_, hScat', ?_⟩
  · intro r hlast hdone
    cases hsz : sizes with
    | nil =>
      subst hsz
      exact Option.noConfusion hlast
    | cons s rest =>
      subst hsz
      have := ftGetBufferRun_last_done (s :: rest) ctxF (by simp)
      rw [hlast] at this
      have hst : r.statusDone
          = ((ftGetBufferRun ctxF (s :: rest)).2.position == ctxF.buffer.length) :=
        Option.some.inj this
      rw [hdone] at hst
      have hpos : (ftGetBufferRun ctxF (s :: rest)).2.position = ctxF.buffer.length :=
        beq_iff_eq.mp hst.symm
      rw [hFcat', hpos, List.take_length]
  · intro r hlast hdone
    cases hsz : ps with
    | nil =>
      subst hsz
      exact Option.noConfusion hlast
    | cons s rest =>
      subst hsz
      have := syncGetBufferRun_last_done (s :: rest) ctxS (by simp)
      rw [hlast] at this
      have hst : r.statusDone
          = ((syncGetBufferRun ctxS (s :: rest)).2.position == ctxS.buffer.length) :=
        Option.some.inj this
      rw [hdone] at hst
      have hpos : (syncGetBufferRun ctxS (s :: rest)).2.position = ctxS.buffer.length :=
        beq_iff_eq.mp hst.symm
      rw [hScat', hpos, List.take_length]

theorem ftGetBufferStep_total (ctx : FtStreamCtx) (s : Nat) :
    (ftGetBufferStep ctx s).2.total_steps
        = (if ctx.position = 0 then ctx.buffer.length / s + 1 else ctx.total_steps)
      ∧ (ftGetBufferStep ctx s).1.totalStepCount = (ftGetBufferStep ctx s).2.total_steps := by
  rw [ftGetBufferStep_eq_body]
  by_cases h : ctx.position = 0 <;>
    simp [h, getBufferBody_total]

theorem ftGetBufferRun_total_inv (sizes : List Nat) (ctx : FtStreamCtx) (t : Nat)
    (h1 : ctx.total_steps = t)
    (h2 : ctx.position = 0 → ctx.buffer.length = 0 ∧ t = 1) :
    ∀ r ∈ (ftGetBufferRun ctx sizes).1, r.totalStepCount = t := by
  induction sizes generalizing ctx with
  | nil =>
    intro r hr
    exact absurd hr (by simp [ftGetBufferRun])
  | cons s rest ih =>
    intro r hr
    have htot := ftGetBufferStep_total ctx s
    have hstep1 : (ftGetBufferStep ctx s).2.total_steps = t := by
      by_cases h : ctx.position = 0
      · obtain ⟨hl, ht⟩ := h2 h
        rw [htot.1, if_pos h, hl, Nat.zero_div]
        omega
      · rw [htot.1, if_neg h, h1]
    have hstep2 : (ftGetBufferStep ctx s).2.position = 0 →
        (ftGetBufferStep ctx s).2.buffer.length = 0 ∧ t = 1 := by
      intro hz
      have hp := ftGetBufferStep_position ctx s
      have hb := ftGetBufferStep_buffer ctx s
      have hzero : ctx.position = 0 := by omega
      obtain ⟨hl, ht⟩ := h2 hzero
      rw [hb, hl]
      exact ⟨rfl, ht⟩
    have := ih (ftGetBufferStep ctx s).2 hstep1 hstep2
    rw [show (ftGetBufferRun ctx (s :: rest)).1
      = (ftGetBufferStep ctx s).1 :: (ftGetBufferRun (ftGetBufferStep ctx s).2 rest).1
      from rfl] at hr
    rcases List.mem_cons.mp hr with hr | hr
    · subst hr
      rw [htot.2, hstep1]
    · exact this _ hr

theorem syncGetBufferRun_total_inv (ps : List (Nat × Nat)) (ctx : FtStreamCtx) :
    ∀ r ∈ (syncGetBufferRun ctx ps).1, r.totalStepCount = ctx.total_steps := by
  induction ps generalizing ctx with
  | nil =>
    intro r hr
    exact absurd hr (by simp [syncGetBufferRun])
  | cons s rest ih =>
    intro r hr
    have htot := getBufferBody_total ctx s.1 s.2
    have := ih (syncGetBufferStep ctx s.1 s.2).2
    rw [show (syncGetBufferRun ctx (s :: rest)).1
      = (syncGetBufferStep ctx s.1 s.2).1
          :: (syncGetBufferRun (syncGetBufferStep ctx s.1 s.2).2 rest).1
      from rfl] at hr
    rcases List.mem_cons.mp hr with hr | hr
    · subst hr
      exact htot.2
    · rw [show (syncGetBufferStep ctx s.1 s.2).2.total_steps = ctx.total_steps from htot.1] at this
      exact this _ hr

/-- Claim C6, amended: for positive requested sizes the reported
`TotalStepCount` is `length / first_requested_size + 1` (integer division,
i.e. `floor`, not `ceil`) on every reply of the run, for both the FTCONTEXT
path and a SYNCCONTEXT whose counters were just prepared; in particular the
value remains fixed across all subsequent calls. -/
theorem getBuffer_totalSteps_floor (ctxF ctxS : FtStreamCtx)
    (hF : ctxF.position = 0)
    (s1 : Nat) (hs1 : 0 < s1) (sizes : List Nat) (ps : List (Nat × Nat)) :
    (∀ r ∈ (ftGetBufferRun ctxF (s1 :: sizes)).1,
      r.totalStepCount = ctxF.buffer.length / s1 + 1) ∧
    (∀ r ∈ (syncGetBufferRun (syncPrepareCounters ctxS s1) ps).1,
      r.totalStepCount = ctxS.buffer.length / s1 + 1) := by
  constructor
  · intro r hr
    have htot := ftGetBufferStep_total ctxF s1
    have hstep1 : (ftGetBufferStep ctxF s1).2.total_steps = ctxF.buffer.length / s1 + 1 := by
      rw [htot.1, if_pos hF]
    have hstep2 : (ftGetBufferStep ctxF s1).2.position = 0 →
        (ftGetBufferStep ctxF s1).2.buffer.length = 0 ∧ ctxF.buffer.length / s1 + 1 = 1 := by
      intro hz
      have hb := ftGetBufferStep_buffer ctxF s1
      have hL : ctxF.buffer.length = 0 := by
        by_contra hne
        have := ftGetBufferStep_progress ctxF s1 hs1 (by omega)
        omega
      rw [hb, hL, Nat.zero_div]
      exact ⟨rfl, rfl⟩
    rw [show (ftGetBufferRun ctxF (s1 :: sizes)).1
      = (ftGetBufferStep ctxF s1).1 :: (ftGetBufferRun (ftGetBufferStep ctxF s1).2 sizes).1
      from rfl] at hr
    rcases List.mem_cons.mp hr with hr | hr
    · subst hr
      rw [htot.2, hstep1]
    · exact ftGetBufferRun_total_inv sizes (ftGetBufferStep ctxF s1).2 _ hstep1 hstep2 _ hr
  · intro r hr
    have := syncGetBufferRun_total_inv ps (syncPrepareCounters ctxS s1) r hr
    rw [this]
    rfl

/-- Claim C6, counterexample: a 4-byte stream requested with buffer size 4
reports `TotalStepCount = 4 / 4 + 1 = 2`, while the claimed
`ceil(length / size) = (4 + 4 - 1) / 4 = 1`. -/
theorem getBuffer_totalSteps_not_ceil :
    (ftGetBufferStep ⟨[9, 9, 9, 9], 0, [4294967295], 0, 0, 0⟩ 4).1.totalStepCount = 2
      ∧ (4 + 4 - 1) / 4 = 1 ∧ (2 : Nat) ≠ 1 := by
  refine ⟨?_, by norm_num, by norm_num⟩
  decide

/-- Witness for C2: a concrete 5-byte stream delivered in three chunks of
requested size 2 concatenates to the backing buffer. -/
theorem getBuffer_chunk_concat_witness :
    ((ftGetBufferRun ⟨[1, 2, 3, 4, 5], 0, [2, 4, 4294967295], 0, 0, 0⟩ [2, 2, 2]).1.map
      (fun r => r.transferBuffer)).flatten = [1, 2, 3, 4, 5] :=
  (fastTransferSourceGetBuffer_chunk_concat
      ⟨[1, 2, 3, 4, 5], 0, [2, 4, 4294967295], 0, 0, 0⟩
      ⟨[], 0, [4294967295], 0, 0, 0⟩ rfl rfl [2, 2, 2] []).2.2.2.1
    ⟨[5], 3, 3, true⟩ (by decide) rfl

/-- Witness for the amended C6 at a concrete 3-byte stream with first
requested size 2: the first reply reports `3 / 2 + 1 = 2`. -/
theorem getBuffer_totalSteps_floor_witness :
    ((ftGetBufferRun ⟨[1, 2, 3], 0, [4294967295], 0, 0, 0⟩ [2, 2]).1.getD 0
      ⟨[], 0, 0, false⟩).totalStepCount = 2 :=
  (getBuffer_totalSteps_floor ⟨[1, 2, 3], 0, [4294967295], 0, 0, 0⟩
      ⟨[1, 2, 3], 0, [4294967295], 0, 0, 0⟩ rfl 2 (by decide) [2] []).1 _ (by decide)

/-! ### Emission model for the serializer and the sync producer

The serializer and producer write into two NDR buffers at once: the value
stream (`sync_data->ndr`) and the cut-marks sidecar
(`sync_data->cutmarks_ndr`), where each `ndr_push_uint32(cutmarks_ndr,
ndr->offset)` records the current stream offset.  A run of the code is
modelled as a list of actions: `bytes bs` appends `bs` to the stream,
`mark` records the current stream offset into the sidecar.  `actBytes`
recovers the stream, `actMarks` the recorded offsets. -/

inductive EmitAct
  | bytes (bs : List Nat)
  | mark
deriving Repr, DecidableEq

def actBytes : List EmitAct → List Nat
  | [] => []
  | .bytes bs :: r => bs ++ actBytes r
  | .mark :: r => actBytes r

def actMarksFrom : List EmitAct → Nat → List Nat
  | [], _ => []
  | .bytes bs :: r, off => actMarksFrom r (off + bs.length)
  | .mark :: r, off => off :: actMarksFrom r off

def actMarks (l : List EmitAct) : List Nat := actMarksFrom l 0

theorem actBytes_append (a b : List EmitAct) :
    actBytes (a ++ b) = actBytes a ++ actBytes b := by
  induction a with
  | nil => rfl
  | cons x r ih =>
    cases x with
    | bytes bs => simp [actBytes, ih]
    | mark => simp [actBytes, ih]

theorem actMarksFrom_append (a b : List EmitAct) (off : Nat) :
    actMarksFrom (a ++ b) off
      = actMarksFrom a off ++ actMarksFrom b (off + (actBytes a).length) := by
  induction a generalizing off with
  | nil => simp [actMarksFrom, actBytes]
  | cons x r ih =>
    cases x with
    | bytes bs =>
      show actMarksFrom (r ++ b) (off + bs.length)
        = actMarksFrom r (off + bs.length)
            ++ actMarksFrom b (off + (actBytes (EmitAct.bytes bs :: r)).length)
      rw [ih (off + bs.length)]
      congr 1
      show actMarksFrom b (off + bs.length + (actBytes r).length)
        = actMarksFrom b (off + (bs ++ actBytes r).length)
      rw [List.length_append]
      congr 1
      omega
    | mark => simp [actMarksFrom, actBytes, ih]

theorem actMarksFrom_bounds (l : List EmitAct) (off : Nat) :
    ∀ m ∈ actMarksFrom l off, off ≤ m ∧ m ≤ off + (actBytes l).length := by
  induction l generalizing off with
  | nil => simp [actMarksFrom]
  | cons x r ih =>
    cases x with
    | bytes bs =>
      intro m hm
      have := ih (off + bs.length) m hm
      simp only [actBytes, List.length_append]
      omega
    | mark =>
      intro m hm
      rcases List.mem_cons.mp hm with h | h
      · subst h
        exact ⟨Nat.le_refl _, Nat.le_add_right _ _⟩
      · exact ih off m h

theorem actMarksFrom_chain (l : List EmitAct) (off : Nat) :
    List.Chain' (· ≤ ·) (actMarksFrom l off) := by
  induction l generalizing off with
  | nil => simp [actMarksFrom]
  | cons x r ih =>
    cases x with
    | bytes bs => exact ih (off + bs.length)
    | mark =>
      rw [show actMarksFrom (.mark :: r) off = off :: actMarksFrom r off from rfl]
      rw [List.chain'_cons']
      refine ⟨?_, ih off⟩
      intro b hb
      have hmem : b ∈ actMarksFrom r off := List.mem_of_mem_head? hb
      exact (actMarksFrom_bounds r off b hmem).1

/-- Well-formedness of a cut-marks sidecar relative to its stream: the final
element is the sentinel, the entries before it are non-decreasing and do not
exceed the stream length. -/
def cutmarksWF (stream cms : List Nat) : Prop :=
  cms ≠ [] ∧ cms.getLast? = some 0xffffffff ∧
  List.Chain' (· ≤ ·) cms.dropLast ∧ ∀ c ∈ cms.dropLast, c ≤ stream.length

theorem actMarks_cutmarksWF (acts : List EmitAct) :
    cutmarksWF (actBytes acts) (actMarks acts ++ [0xffffffff]) := by
  refine ⟨by simp, List.getLast?_concat _, ?_, ?_⟩
  · rw [List.dropLast_concat]
    exact actMarksFrom_chain acts 0
  · rw [List.dropLast_concat]
    intro c hc
    have := actMarksFrom_bounds acts 0 c hc
    omega

inductive SimpleVal
  | i2 (n : Nat)
  | long (n : Nat)
  | dbl (bs : List Nat)
  | i8 (n : Nat)
  | bool8 (n : Nat)
  | str8 (bs : List Nat)
  | uni (us : List Nat)
  | bin (bs : List Nat)
  | clsid (g : List Nat)
  | systime (lo hi : Nat)
deriving Repr, DecidableEq

/-- `oxcfxics_ndr_push_simple_data` (oxcfxics.c:82–135): wire encoding of one
scalar value by property type.  A `double` value is carried as its 8-byte
IEEE-754 image.  `PT_STRING8` carries the bytes before the NUL,
`PT_UNICODE` the UTF-16 code units (the source converts from UTF-8 via
`strlen_m_ext`/`ndr_push_string`, which is the identity on the code-unit
sequence).  `PT_BINARY`/`PT_SVREID` push `cb` then the bytes
(`ndr_push_Binary_r`).  The `default: abort()` arm and a value whose stored
shape does not match the type (a type-confused read in C) are `none`. -/
def oxcfxics_ndr_push_simple_data (data_type : Nat) (v : SimpleVal) : Option (List Nat) :=
  match data_type, v with
  | 0x0002, .i2 n => some (u16le n)
  | 0x0003, .long n => some (u32le n)
  | 0x000A, .long n => some (u32le n)
  | 0x000D, .long n => some (u32le n)
  | 0x0005, .dbl bs => some bs
  | 0x0014, .i8 n => some (u64le n)
  | 0x000B, .bool8 n => some (if n ≠ 0 then u16le 1 else u16le 0)
  | 0x001E, .str8 bs => some (u32le (bs.length + 1) ++ bs ++ [0])
  | 0x001F, .uni us => some (u32le (2 * us.length + 2) ++ (us.map u16le).flatten ++ [0, 0])
  | 0x00FB, .bin bs => some (u32le bs.length ++ bs)
  | 0x0102, .bin bs => some (u32le bs.length ++ bs)
  | 0x0048, .clsid g => some g
  | 0x0040, .systime lo hi => some (u32le lo ++ u32le hi)
  | _, _ => none

inductive PropData
  | single (v : SimpleVal)
  | mvBin (vs : List (List Nat))
  | mvUni (vs : List (List Nat))
deriving Repr, DecidableEq

/-- The per-record value dispatch of `oxcfxics_ndr_push_properties`
(oxcfxics.c:179–205): multi-valued properties (`MV_FLAG = 0x1000`) push a
`u32` count then each element; only MV binary and MV unicode are handled,
anything else is `abort()` (`none`).  Scalar values go through
`oxcfxics_ndr_push_simple_data`. -/
def oxcfxics_push_value (prop_type : Nat) (d : PropData) : Option (List Nat) :=
  if prop_type &&& 0x1000 ≠ 0 then
    match prop_type &&& 0x0fff, d with
    | 0x0102, .mvBin vs =>
      (vs.mapM (fun b => oxcfxics_ndr_push_simple_data 0x0102 (.bin b))).map
        (fun parts => u32le vs.length ++ parts.flatten)
    | 0x001F, .mvUni vs =>
      (vs.mapM (fun u => oxcfxics_ndr_push_simple_data 0x001F (.uni u))).map
        (fun parts => u32le vs.length ++ parts.flatten)
    | _, _ => none
  else
    match d with
    | .single v => oxcfxics_ndr_push_simple_data prop_type v
    | _ => none

inductive NameKind
  | id (lid : Nat)
  | str (us : List Nat)
deriving Repr, DecidableEq

structure MapiNameId where
  guid : List Nat
  kind : NameKind
deriving Repr, DecidableEq

/-- The named-property prefix (oxcfxics.c:161–172): GUID, then kind byte 0
with a `u32` lid (`MNID_ID`) or kind byte 1 with a NUL-terminated UTF-16
name (`MNID_STRING`). -/
def pushNameId (n : MapiNameId) : List Nat :=
  n.guid ++ (match n.kind with
    | .id lid => [0] ++ u32le lid
    | .str us => [1] ++ (us.map u16le).flatten ++ [0, 0])

/-- One slot of the `properties`/`data_pointers`/`retvals` triple passed to
`oxcfxics_ndr_push_properties`. -/
structure PropEntry where
  tag : Nat
  retval : Nat
  data : PropData
deriving Repr, DecidableEq

/-- `oxcfxics_ndr_push_properties` (oxcfxics.c:137–210).  For every property
whose `retval` is `MAPI_E_SUCCESS` a cut-mark is recorded first; a named
property (tag above `0x80000000`) whose `mapistore_namedprops_get_nameid`
lookup fails is then skipped (`continue`) — leaving the cut-mark without
bytes; otherwise the tag, the optional name prefix and the value are
pushed.  `nprops` is the external named-property registry, keyed by the
high 16 bits of the tag. -/
def oxcfxics_ndr_push_properties (nprops : Nat → Option MapiNameId) :
    List PropEntry → Option (List EmitAct)
  | [] => some []
  | e :: rest =>
    if e.retval = 0 then
      if e.tag > 0x80000000 then
        match nprops ((e.tag &&& 0xffff0000) >>> 16) with
        | none =>
          (oxcfxics_ndr_push_properties nprops rest).map (fun acts => .mark :: acts)
        | some nid =>
          match oxcfxics_push_value (e.tag &&& 0xffff) e.data with
          | none => none
          | some vb =>
            (oxcfxics_ndr_push_properties nprops rest).map
              (fun acts => .mark :: .bytes (u32le e.tag ++ pushNameId nid ++ vb) :: acts)
      else
        match oxcfxics_push_value (e.tag &&& 0xffff) e.data with
        | none => none
        | some vb =>
          (oxcfxics_ndr_push_properties nprops rest).map
            (fun acts => .mark :: .bytes (u32le e.tag ++ vb) :: acts)
    else oxcfxics_ndr_push_properties nprops rest

/-- The stream/cut-marks pair built by
`EcDoRpc_RopFastTransferSourceCopyTo` (oxcfxics.c:384–409): serialize the
properties, then append the `0xffffffff` sentinel to the sidecar. -/
def copyToStream (nprops : Nat → Option MapiNameId) (entries : List PropEntry) :
    Option (List Nat × List Nat) :=
  (oxcfxics_ndr_push_properties nprops entries).map
    (fun acts => (actBytes acts, actMarks acts ++ [0xffffffff]))

/-- Claim C3, counterexample: a property list holding one successful
`PT_LONG` property followed by two named properties whose registry lookup
fails yields the cut-marks `[0, 8, 8, sentinel]` for an 8-byte stream: the
entries are neither strictly increasing (8, 8) nor all strictly below the
stream length (8 = length). -/
theorem cutmarks_not_strictly_increasing :
    copyToStream (fun _ => none)
      [⟨0x30000003, 0, .single (.long 1)⟩, ⟨0x80010003, 0, .single (.long 0)⟩,
       ⟨0x80010003, 0, .single (.long 0)⟩]
      = some ([3, 0, 0, 48, 1, 0, 0, 0], [0, 8, 8, 4294967295])
    ∧ ¬ List.Chain' (· < ·) [0, 8, 8]
    ∧ ¬ (∀ c ∈ ([0, 8, 8] : List Nat), c < 8) := by
  refine ⟨by decide, ?_, ?_⟩
  · intro h
    have h1 := (List.chain'_cons.mp h).2
    have h2 := (List.chain'_cons.mp h1).1
    omega
  · intro h
    have := h 8 (by simp)
    omega

/-! ### The contents-mode sync producer (oxcfxics.c:428–770)

Property-tag constants; the numeric values come from the libmapi /
exchange headers, which are external to this module. -/

/-- The fixed epoch `oc_version_time` (oxcfxics.c:33). -/
def oc_version_time : Nat := 0x4dbb2dbe

def PR_MID : Nat := 0x674A0014
def PR_ASSOCIATED : Nat := 0x67AA000B
def PR_MESSAGE_SIZE : Nat := 0x0E080003
def PR_CHANGE_NUM : Nat := 0x67A40014
def PR_CHANGE_KEY : Nat := 0x65E20102
def PR_LAST_MODIFICATION_TIME : Nat := 0x30080040
def PR_DISPLAY_NAME_UNICODE : Nat := 0x3001001F
def PR_PREDECESSOR_CHANGE_LIST : Nat := 0x65E30102
def PR_SOURCE_KEY : Nat := 0x65E00102
def PR_INCR_SYNC_CHG : Nat := 0x40120003
def PR_INCR_SYNC_MSG : Nat := 0x40150003
def PR_INCR_SYNC_STATE_BEGIN : Nat := 0x403A0003
def PR_INCR_SYNC_STATE_END : Nat := 0x403B0003
def PR_INCR_SYNC_END : Nat := 0x40140003
def PidTagIdsetGiven : Nat := 0x40170003
def PidTagCnsetSeen : Nat := 0x67960102
def PidTagCnsetSeenFAI : Nat := 0x67DA0102
def PidTagCnsetRead : Nat := 0x67D20102
def PR_FX_DEL_PROP : Nat := 0x40160003
def PR_MESSAGE_RECIPIENTS : Nat := 0x0E12000D
def PR_MESSAGE_ATTACHMENTS : Nat := 0x0E13000D
def PR_START_RECIP : Nat := 0x40030003
def PR_END_RECIP : Nat := 0x40040003
def PR_NEW_ATTACH : Nat := 0x40000003
def PR_END_ATTACH : Nat := 0x400E0003
def PR_ATTACH_NUM : Nat := 0x0E210003
def PR_ROWID : Nat := 0x30000003
def PR_ATTACH_METHOD : Nat := 0x37050003
def PR_ATTACH_TAG : Nat := 0x370A0102
def PR_ATTACH_SIZE : Nat := 0x0E200003
def PR_RECORD_KEY : Nat := 0x0FF90102
def PR_ATTACH_LONG_FILENAME_UNICODE : Nat := 0x3707001F
def PR_ATTACH_CONTENT_ID_UNICODE : Nat := 0x3712001F
def PR_ATTACH_MIME_TAG_UNICODE : Nat := 0x370E001F
def PR_CREATION_TIME : Nat := 0x30070040
def PR_ATTACH_DATA_BIN : Nat := 0x37010102

/-- The fixed attachment property list `prop_tags` (oxcfxics.c:474). -/
def oxcfxics_attachment_prop_tags : List Nat :=
  [PR_ATTACH_METHOD, PR_ATTACH_TAG, PR_ATTACH_SIZE, PR_RECORD_KEY,
   PR_ATTACH_LONG_FILENAME_UNICODE, PR_DISPLAY_NAME_UNICODE,
   PR_ATTACH_CONTENT_ID_UNICODE, PR_ATTACH_MIME_TAG_UNICODE,
   PR_CREATION_TIME, PR_LAST_MODIFICATION_TIME, PR_ATTACH_DATA_BIN]

/-- Samba `unix_to_nt_time` — external; 100ns ticks since 1601. -/
def unix_to_nt_time (u : Nat) : Nat := u * 10000000 + 116444736000000000

/-- Samba `nt_time_to_unix` — external; inverse of `unix_to_nt_time`,
clamped at 0 (negative `time_t` values do not arise in the claims). -/
def nt_time_to_unix (t : Nat) : Nat := (t - 116444736000000000) / 10000000

/-- The libmapi `struct idset` — external to the module; only the fields
oxcfxics.c reads or writes (`single`, `range_count`) are exposed, the range
payload itself is never inspected by this module. -/
structure idsetRep where
  single : Bool
  range_count : Nat
deriving Repr, DecidableEq

/-- The request flags of a synccontext that the producer and handlers read
(a subset of the fields set by `EcDoRpc_RopSyncConfigure`). -/
structure SyncRequest where
  contents_mode : Bool
  normal : Bool
  fai : Bool
  read_state : Bool
  request_eid : Bool
  request_message_size : Bool
  request_cn : Bool
deriving Repr, DecidableEq

/-- The mutable state of `struct emsmdbp_object_synccontext` that the
FX/ICS handlers touch. -/
structure SyncContextState where
  request : SyncRequest
  properties : List Nat
  idset_given : Option idsetRep
  cnset_seen : Option idsetRep
  state_property : Nat
  state_stream : List Nat
  is_collector : Bool
deriving Repr, DecidableEq

/-- External collaborators of the producer: the replica registry, the
named-property registry, `exchange_globcnt`, `IDSET_includes_id`,
`RAWIDSET_convert_to_idset`, `IDSET_merge_idsets`, `ndr_push_idset`
(serialisation of an idset, `none` = NULL pointer), and the mailbox
replica GUID from `openchangedb_get_MailboxReplica`. -/
structure SyncProducerEnv where
  reg : ReplicaRegistry
  nprops : Nat → Option MapiNameId
  globcnt : Nat → Nat
  includesId : Option idsetRep → List Nat → Nat → Bool
  convertToIdset : List (List Nat × Nat) → Option idsetRep
  mergeIdsets : Option idsetRep → Option idsetRep → Option idsetRep
  serializeIdset : Option idsetRep → List Nat
  replicaGuid : List Nat

/-- `struct oxcfxics_prop_index` (oxcfxics.c:57). -/
structure oxcfxics_prop_index where
  parent_fid : Nat
  eid : Nat
  precedessor_change_list : Nat
  last_modification_time : Nat
  display_name : Nat
  associated : Nat
  message_size : Nat
deriving Repr, DecidableEq

/-- libmapi `SPropTagArray_find`: index of the tag in the array; the caller
ignores the error and keeps the `talloc_zero` default 0 when absent. -/
def SPropTagArray_find (props : List Nat) (tag : Nat) : Option Nat :=
  props.findIdx? (fun t => t == tag)

/-- One message-table row as the store returns it: per-column
`(retval, value)` cells aligned with the synccontext property array, the
`mapistore_message` recipients (if the message opens and has recipients),
and the attachment table (`none` when absent; a `none` row models a failed
`emsmdbp_object_table_get_row_props`, which the source answers with
`abort()`). -/
structure MsgRow where
  cells : List (Nat × PropData)
  recipients : Option (List (List (Nat × PropData)))
  attachTable : Option (List (Option (List (Nat × PropData))))
deriving Repr, DecidableEq

/-- Result of a table walk: the emitted actions plus the `(guid, id)`
pairs accumulated through `RAWIDSET_push_glob` into `eid_set` and
`cnset_seen`. -/
structure WalkOut where
  acts : List EmitAct
  eids : List (List Nat × Nat)
  cns : List (List Nat × Nat)
deriving Repr, DecidableEq

/-- The raw `*(uint64_t *) data_pointers[i]` read: defined only on a cell
that actually stores a 64-bit scalar (anything else is a type-confused
read, i.e. undefined behaviour). -/
def readI8 : PropData → Option Nat
  | .single (.i8 n) => some n
  | _ => none

/-- The raw `struct FILETIME *` read (same caveat as `readI8`). -/
def readSystime : PropData → Option (Nat × Nat)
  | .single (.systime lo hi) => some (lo, hi)
  | _ => none

/-- `oxcfxics_push_messageChange_recipients` (oxcfxics.c:428–467). -/
def oxcfxics_push_messageChange_recipients (env : SyncProducerEnv)
    (recipients : Option (List (List (Nat × PropData)))) : Option (List EmitAct) := do
  let hdr : List EmitAct :=
    [.mark, .bytes (u32le PR_FX_DEL_PROP ++ u32le PR_MESSAGE_RECIPIENTS)]
  match recipients with
  | none => pure hdr
  | some rows => do
    let rowActs ← rows.enum.mapM (fun p => do
      let acts ← oxcfxics_ndr_push_properties env.nprops
        (p.2.map (fun c => ⟨c.1, 0, c.2⟩))
      pure ([.mark, .bytes (u32le PR_START_RECIP),
             .mark, .bytes (u32le PR_ROWID ++ u32le p.1)]
        ++ acts ++ [.mark, .bytes (u32le PR_END_RECIP)]))
    pure (hdr ++ rowActs.flatten)

/-- `oxcfxics_push_messageChange_attachments` (oxcfxics.c:469–512): the
`PidTagFXDelProp`/`PR_MESSAGE_ATTACHMENTS` pair is pushed before the table
is opened; rows are emitted only when the table exists and its denominator
is positive; a missing row aborts. -/
def oxcfxics_push_messageChange_attachments (env : SyncProducerEnv)
    (attachTable : Option (List (Option (List (Nat × PropData))))) :
    Option (List EmitAct) := do
  let hdr : List EmitAct :=
    [.bytes (u32le PR_FX_DEL_PROP ++ u32le PR_MESSAGE_ATTACHMENTS)]
  match attachTable with
  | none => pure hdr
  | some rows =>
    if rows.length > 0 then do
      let rowActs ← rows.enum.mapM (fun p => do
        match p.2 with
        | none => none
        | some cells => do
          let acts ← oxcfxics_ndr_push_properties env.nprops
            ((oxcfxics_attachment_prop_tags.zip cells).map
              (fun c => ⟨c.1, c.2.1, c.2.2⟩))
          pure ([.mark, .bytes (u32le PR_NEW_ATTACH ++ u32le PR_ATTACH_NUM ++ u32le p.1)]
            ++ acts ++ [.bytes (u32le PR_END_ATTACH)]))
      pure (hdr ++ rowActs.flatten)
    else pure hdr

/-- One iteration of the row loop of `oxcfxics_push_messageChange`
(oxcfxics.c:546–683): record a cut-mark; read the FMID from the `PR_MID`
column and push `(replica, gc)` into `eid_set`; build the source key; read
or default the last-modification time and clamp it at `oc_version_time`;
compute `cn`; when `IDSET_includes_id(synccontext->cnset_seen, …, cn)`
already holds the row is skipped (`goto end_row`) with only its cut-mark
emitted; otherwise push `(replica, cn)` into the raw `cnset_seen`, build
the header (source key, last-modification time, change key, predecessor
change list, associated, and conditionally `PR_MID`, `PR_MESSAGE_SIZE` —
whose value is zeroed when `retvals[prop_index.parent_fid]` fails, as in
the source — and `PR_CHANGE_NUM`), emit `PR_INCR_SYNC_CHG`, the header,
`PR_INCR_SYNC_MSG`, the columns past the first 7, then recipients and
attachments. -/
def oxcfxics_push_messageChange_row (env : SyncProducerEnv) (sctx : SyncContextState)
    (idx : oxcfxics_prop_index) (props : List Nat) (row : MsgRow) : Option WalkOut := do
  let eidCell ← row.cells[idx.eid]?
  let eid ← readI8 eidCell.2
  let rowGuid ← env.reg.replidToGuid (eid % 65536)
  let eidPush := [(rowGuid, eid >>> 16)]
  let skBytes ← oxcfxics_source_key_from_fmid env.reg eid
  let lmCell ← row.cells[idx.last_modification_time]?
  let lm ←
    if lmCell.1 ≠ 0 then
      some (unix_to_nt_time oc_version_time % 4294967296,
        unix_to_nt_time oc_version_time / 4294967296, oc_version_time)
    else
      (readSystime lmCell.2).map
        (fun lh => (lh.1, lh.2, nt_time_to_unix (lh.2 * 4294967296 + lh.1)))
  let unix_time := if lm.2.2 < oc_version_time then oc_version_time else lm.2.2
  let cn := ((eid &&& 0xffff000000000000) >>> 16)
    ||| (env.globcnt (unix_time - oc_version_time) >>> 16)
  if env.includesId sctx.cnset_seen env.replicaGuid cn then
    pure ⟨[.mark], eidPush, []⟩
  else do
    let ck ← oxcfxics_make_gid env.replicaGuid cn
    let assocCell ← row.cells[idx.associated]?
    let pfCell ← row.cells[idx.parent_fid]?
    let msCell ← row.cells[idx.message_size]?
    let header : List (Nat × PropData) :=
      [(PR_SOURCE_KEY, .single (.bin skBytes)),
       (PR_LAST_MODIFICATION_TIME, .single (.systime lm.1 lm.2.1)),
       (PR_CHANGE_KEY, .single (.bin ck)),
       (PR_PREDECESSOR_CHANGE_LIST, .single (.bin ([ck.length % 256] ++ ck))),
       (PR_ASSOCIATED, if assocCell.1 ≠ 0 then .single (.bool8 0) else assocCell.2)]
      ++ (if sctx.request.request_eid then [(PR_MID, .single (.i8 eid))] else [])
      ++ (if sctx.request.request_message_size then
            [(PR_MESSAGE_SIZE, if pfCell.1 ≠ 0 then .single (.long 0) else msCell.2)]
          else [])
      ++ (if sctx.request.request_cn then
            [(PR_CHANGE_NUM, .single (.i8 ((cn <<< 16) ||| (eid &&& 0xffff))))]
          else [])
    let headerActs ← oxcfxics_ndr_push_properties env.nprops
      (header.map (fun c => ⟨c.1, 0, c.2⟩))
    let bodyActs ←
      if props.length > 7 then
        oxcfxics_ndr_push_properties env.nprops
          (((props.drop 7).zip (row.cells.drop 7)).map (fun c => ⟨c.1, c.2.1, c.2.2⟩))
      else pure []
    let recipActs ← oxcfxics_push_messageChange_recipients env row.recipients
    let attachActs ← oxcfxics_push_messageChange_attachments env row.attachTable
    pure ⟨[.mark, .bytes (u32le PR_INCR_SYNC_CHG)] ++ headerActs
        ++ [.bytes (u32le PR_INCR_SYNC_MSG)] ++ bodyActs ++ recipActs ++ attachActs,
      eidPush, [(env.replicaGuid, cn)]⟩

/-- The row loop of `oxcfxics_push_messageChange` over the table rows; a
`none` row (NULL `data_pointers`) is the source's `abort()`. -/
def oxcfxics_push_messageChange (env : SyncProducerEnv) (sctx : SyncContextState)
    (idx : oxcfxics_prop_index) (props : List Nat) :
    List (Option MsgRow) → Option WalkOut
  | [] => some ⟨[], [], []⟩
  | none :: _ => none
  | some row :: rest => do
    let r ← oxcfxics_push_messageChange_row env sctx idx props row
    let rr ← oxcfxics_push_messageChange env sctx idx props rest
    pure ⟨r.acts ++ rr.acts, r.eids ++ rr.eids, r.cns ++ rr.cns⟩

/-- The `SPropTagArray_find` calls of
`oxcfxics_prepare_synccontext_with_messageChange` (oxcfxics.c:703–707);
fields not searched in contents mode keep the `talloc_zero` default 0. -/
def oxcfxics_synccontext_prop_index (props : List Nat) : oxcfxics_prop_index where
  parent_fid := 0
  eid := (SPropTagArray_find props PR_MID).getD 0
  precedessor_change_list := (SPropTagArray_find props PR_PREDECESSOR_CHANGE_LIST).getD 0
  last_modification_time := (SPropTagArray_find props PR_LAST_MODIFICATION_TIME).getD 0
  display_name := 0
  associated := (SPropTagArray_find props PR_ASSOCIATED).getD 0
  message_size := (SPropTagArray_find props PR_MESSAGE_SIZE).getD 0

/-- The state block pushed after the message changes
(oxcfxics.c:730–760): `PR_INCR_SYNC_STATE_BEGIN`; `PidTagCnsetSeen` with
the merged seen-set; the same bytes again under `PidTagCnsetSeenFAI` iff
the FAI flag is set; `PidTagIdsetGiven` with the merged given-set; the
seen-set bytes again under `PidTagCnsetRead` iff read_state is set;
`PR_INCR_SYNC_STATE_END`; `PR_INCR_SYNC_END`. -/
def oxcfxics_synccontext_state_block (env : SyncProducerEnv) (sctx : SyncContextState)
    (idset_given' cnset_seen' : Option idsetRep) : List Nat :=
  u32le PR_INCR_SYNC_STATE_BEGIN
  ++ u32le PidTagCnsetSeen ++ env.serializeIdset cnset_seen'
  ++ (if sctx.request.fai then
        u32le PidTagCnsetSeenFAI ++ env.serializeIdset cnset_seen'
      else [])
  ++ u32le PidTagIdsetGiven ++ env.serializeIdset idset_given'
  ++ (if sctx.request.read_state then
        u32le PidTagCnsetRead ++ env.serializeIdset cnset_seen'
      else [])
  ++ u32le PR_INCR_SYNC_STATE_END
  ++ u32le PR_INCR_SYNC_END

/-- `oxcfxics_prepare_synccontext_with_messageChange` (oxcfxics.c:688–770):
walk the normal table if requested, then the FAI table if requested
(accumulating into the same raw sets), merge the accumulated sets into the
session sets, append the state block, terminate the cut-marks with the
sentinel, and store the merged sets back into the synccontext. -/
def oxcfxics_prepare_synccontext_with_messageChange (env : SyncProducerEnv)
    (sctx : SyncContextState) (normalRows faiRows : List (Option MsgRow)) :
    Option (List Nat × List Nat × SyncContextState) :=
  match
    (if sctx.request.normal then
      oxcfxics_push_messageChange env sctx
        (oxcfxics_synccontext_prop_index sctx.properties) sctx.properties normalRows
    else some ⟨[], [], []⟩) with
  | none => none
  | some wN =>
    match
      (if sctx.request.fai then
        oxcfxics_push_messageChange env sctx
          (oxcfxics_synccontext_prop_index sctx.properties) sctx.properties faiRows
      else some ⟨[], [], []⟩) with
    | none => none
    | some wF =>
      let idset_given' := env.mergeIdsets sctx.idset_given
        (env.convertToIdset (wN.eids ++ wF.eids))
      let cnset_seen' := env.mergeIdsets sctx.cnset_seen
        (env.convertToIdset (wN.cns ++ wF.cns))
      let acts := wN.acts ++ wF.acts
        ++ [.bytes (oxcfxics_synccontext_state_block env sctx idset_given' cnset_seen')]
      some (actBytes acts, actMarks acts ++ [0xffffffff],
        { sctx with idset_given := idset_given', cnset_seen := cnset_seen' })

/-- Claim C4: in contents mode, after the message-change records the
produced stream ends with exactly `PR_INCR_SYNC_STATE_BEGIN`;
`PidTagCnsetSeen` followed by the serialized merged `cnset_seen`; iff the
FAI flag is set, `PidTagCnsetSeenFAI` followed by the same serialized
bytes; `PidTagIdsetGiven` followed by the serialized merged `idset_given`;
iff the read_state flag is set, `PidTagCnsetRead` followed by the same
serialized bytes; `PR_INCR_SYNC_STATE_END`; `PR_INCR_SYNC_END` — where
each merged set is `IDSET_merge_idsets` of the session set with the idset
converted from the walk's accumulator. -/
theorem prepare_synccontext_state_block_tail (env : SyncProducerEnv)
    (sctx : SyncContextState) (normalRows faiRows : List (Option MsgRow))
    (wN wF : WalkOut) (s cm : List Nat) (sctx' : SyncContextState)
    (hN : (if sctx.request.normal then
        oxcfxics_push_messageChange env sctx
          (oxcfxics_synccontext_prop_index sctx.properties) sctx.properties normalRows
      else some ⟨[], [], []⟩) = some wN)
    (hF : (if sctx.request.fai then
        oxcfxics_push_messageChange env sctx
          (oxcfxics_synccontext_prop_index sctx.properties) sctx.properties faiRows
      else some ⟨[], [], []⟩) = some wF)
    (h : oxcfxics_prepare_synccontext_with_messageChange env sctx normalRows faiRows
      = some (s, cm, sctx')) :
    sctx'.cnset_seen
        = env.mergeIdsets sctx.cnset_seen (env.convertToIdset (wN.cns ++ wF.cns))
      ∧ sctx'.idset_given
        = env.mergeIdsets sctx.idset_given (env.convertToIdset (wN.eids ++ wF.eids))
      ∧ s = actBytes (wN.acts ++ wF.acts)
          ++ u32le PR_INCR_SYNC_STATE_BEGIN
          ++ u32le PidTagCnsetSeen ++ env.serializeIdset sctx'.cnset_seen
          ++ (if sctx.request.fai then
                u32le PidTagCnsetSeenFAI ++ env.serializeIdset sctx'.cnset_seen
              else [])
          ++ u32le PidTagIdsetGiven ++ env.serializeIdset sctx'.idset_given
          ++ (if sctx.request.read_state then
                u32le PidTagCnsetRead ++ env.serializeIdset sctx'.cnset_seen
              else [])
          ++ u32le PR_INCR_SYNC_STATE_END
          ++ u32le PR_INCR_SYNC_END := by
  unfold oxcfxics_prepare_synccontext_with_messageChange at h
  rw [hN, hF] at h
  simp only [Option.some_inj, Prod.mk.injEq] at h
  obtain ⟨hs, hcm, hctx⟩ := h
  have hcn : sctx'.cnset_seen
      = env.mergeIdsets sctx.cnset_seen (env.convertToIdset (wN.cns ++ wF.cns)) := by
    rw [← hctx]
  have hgv : sctx'.idset_given
      = env.mergeIdsets sctx.idset_given (env.convertToIdset (wN.eids ++ wF.eids)) := by
    rw [← hctx]
  refine ⟨hcn, hgv, ?_⟩
  rw [← hs, actBytes_append, actBytes_append]
  rw [show actBytes [EmitAct.bytes (oxcfxics_synccontext_state_block env sctx
      (env.mergeIdsets sctx.idset_given (env.convertToIdset (wN.eids ++ wF.eids)))
      (env.mergeIdsets sctx.cnset_seen (env.convertToIdset (wN.cns ++ wF.cns))))]
    = oxcfxics_synccontext_state_block env sctx
      (env.mergeIdsets sctx.idset_given (env.convertToIdset (wN.eids ++ wF.eids)))
      (env.mergeIdsets sctx.cnset_seen (env.convertToIdset (wN.cns ++ wF.cns)))
    from by simp [actBytes]]
  rw [hcn, hgv]
  unfold oxcfxics_synccontext_state_block
  simp only [List.append_assoc]

/-- Claim C3, amended: for every stream produced by the property
serializer (`FastTransferSourceCopyTo`) and by the contents-mode sync
producer, the cut-marks sidecar ends with the sentinel `0xffffffff`, and
the entries before the sentinel are non-decreasing (not strictly
increasing) and at most (not strictly below) the stream length. -/
theorem oxcfxics_cutmarks_wf (np : Nat → Option MapiNameId) (entries : List PropEntry)
    (env : SyncProducerEnv) (sctx : SyncContextState) (nr fr : List (Option MsgRow))
    (sC cmC sP cmP : List Nat) (sctx' : SyncContextState)
    (h1 : copyToStream np entries = some (sC, cmC))
    (h2 : oxcfxics_prepare_synccontext_with_messageChange env sctx nr fr
      = some (sP, cmP, sctx')) :
    cutmarksWF sC cmC ∧ cutmarksWF sP cmP := by
  constructor
  · unfold copyToStream at h1
    obtain ⟨acts, hacts, heq⟩ := Option.map_eq_some'.mp h1
    obtain ⟨hsC, hcmC⟩ := Prod.mk.injEq _ _ _ _ ▸ heq.symm
    rw [hsC, hcmC]
    exact actMarks_cutmarksWF acts
  · unfold oxcfxics_prepare_synccontext_with_messageChange at h2
    cases hN : (if sctx.request.normal then
        oxcfxics_push_messageChange env sctx
          (oxcfxics_synccontext_prop_index sctx.properties) sctx.properties nr
      else some ⟨[], [], []⟩) with
    | none => rw [hN] at h2; exact Option.noConfusion h2
    | some wN =>
      cases hF : (if sctx.request.fai then
          oxcfxics_push_messageChange env sctx
            (oxcfxics_synccontext_prop_index sctx.properties) sctx.properties fr
        else some ⟨[], [], []⟩) with
      | none => rw [hN, hF] at h2; exact Option.noConfusion h2
      | some wF =>
        rw [hN, hF] at h2
        simp only [Option.some_inj, Prod.mk.injEq] at h2
        obtain ⟨hsP, hcmP, _⟩ := h2
        rw [← hsP, ← hcmP]
        exact actMarks_cutmarksWF _

/-- A concrete producer environment for the witnesses. -/
def envTriv : SyncProducerEnv where
  reg := regOne
  nprops := fun _ => none
  globcnt := fun n => n
  includesId := fun _ _ _ => false
  convertToIdset := fun l => some ⟨false, l.length⟩
  mergeIdsets := fun _ b => b
  serializeIdset := fun o => match o with
    | some i => [i.range_count % 256]
    | none => [255]
  replicaGuid := List.replicate 16 7

/-- A concrete synccontext (contents mode, FAI and read_state set, normal
unset) for the witnesses. -/
def sctxFai : SyncContextState where
  request := ⟨true, false, true, true, false, false, false⟩
  properties := []
  idset_given := none
  cnset_seen := none
  state_property := 0
  state_stream := []
  is_collector := false

/-- Witness for the amended C3 on a concrete serializer stream and a
concrete producer stream. -/
theorem oxcfxics_cutmarks_wf_witness :
    cutmarksWF [3, 0, 0, 48, 1, 0, 0, 0] [0, 8, 4294967295]
      ∧ cutmarksWF
          (oxcfxics_synccontext_state_block envTriv sctxFai
            (some ⟨false, 0⟩) (some ⟨false, 0⟩))
          [4294967295] :=
  oxcfxics_cutmarks_wf (fun _ => none)
    [⟨0x30000003, 0, .single (.long 1)⟩, ⟨0x80010003, 0, .single (.long 0)⟩]
    envTriv sctxFai [] [] _ _ _ _ _ rfl rfl

/-- Witness for C4 at a concrete empty FAI sync. -/
theorem prepare_synccontext_state_block_tail_witness :
    (SyncContextState.cnset_seen
        ⟨⟨true, false, true, true, false, false, false⟩, [], some ⟨false, 0⟩,
          some ⟨false, 0⟩, 0, [], false⟩)
      = envTriv.mergeIdsets sctxFai.cnset_seen (envTriv.convertToIdset ([] ++ [])) :=
  (prepare_synccontext_state_block_tail envTriv sctxFai [] [] ⟨[], [], []⟩ ⟨[], [], []⟩
    _ _ _ rfl rfl rfl).1

/-! ### FX/ICS Rop handlers (state upload, imports)

The handlers are modelled from the point where the synccontext handle has
been resolved (handle-table plumbing is external).  A handler yields
`.ok cret reply state` — `cret` being the C return value of the
`EcDoRpc_Rop…` function — or `.crash` when the source calls `abort()`. -/

def MAPI_E_SUCCESS : Nat := 0
def MAPI_E_NO_SUPPORT : Nat := 0x80040102
def MAPI_E_INVALID_OBJECT : Nat := 0x80040108
def MAPI_E_INVALID_PARAMETER : Nat := 0x80070057
def MAPI_E_NOT_FOUND : Nat := 0x8004010F
def MAPI_E_NOT_INITIALIZED : Nat := 0x80040605

inductive RopResult (α σ : Type)
  | ok (cret : Nat) (reply : α) (st : σ)
  | crash
deriving Repr, DecidableEq

/-- The C return value is `MAPI_E_SUCCESS` whenever the handler returns. -/
def returnsSuccess {α σ : Type} : RopResult α σ → Prop
  | .ok cret _ _ => cret = MAPI_E_SUCCESS
  | .crash => True

/-- Reply of the state-upload Rops: only `error_code` is populated. -/
structure UploadReply where
  error_code : Nat
deriving Repr, DecidableEq

/-- Reply of `SyncImportMessageChange`: `error_code` and `MessageId`. -/
structure ImportMessageChangeReply where
  error_code : Nat
  messageId : Nat
deriving Repr, DecidableEq

/-- Reply of `SyncImportDeletes`; `deleted` records the FMIDs for which a
`mapistore_folder_delete_message` call was issued (store results are only
logged by the source). -/
structure ImportDeletesReply where
  error_code : Nat
  deleted : List Nat
deriving Repr, DecidableEq

/-- `EcDoRpc_RopSyncUploadStateStreamBegin` (oxcfxics.c:1760–1823): refuse
when an upload is already pending (`NotInitialized`) or the property is not
one of the four state properties (`InvalidParameter`); otherwise arm the
upload and reset the scratch stream. -/
def EcDoRpc_RopSyncUploadStateStreamBegin (sctx : SyncContextState)
    (property : Nat) : RopResult UploadReply SyncContextState :=
  if sctx.state_property ≠ 0 then
    .ok MAPI_E_SUCCESS ⟨MAPI_E_NOT_INITIALIZED⟩ sctx
  else if ¬ (property = PidTagIdsetGiven ∨ property = PidTagCnsetSeen
      ∨ property = PidTagCnsetSeenFAI ∨ property = PidTagCnsetRead) then
    .ok MAPI_E_SUCCESS ⟨MAPI_E_INVALID_PARAMETER⟩ sctx
  else
    .ok MAPI_E_SUCCESS ⟨MAPI_E_SUCCESS⟩
      { sctx with state_property := property, state_stream := [] }

/-- `EcDoRpc_RopSyncUploadStateStreamContinue` (oxcfxics.c:1837–1897):
refuse when idle, otherwise append the request bytes to the scratch
stream. -/
def EcDoRpc_RopSyncUploadStateStreamContinue (sctx : SyncContextState)
    (streamData : List Nat) : RopResult UploadReply SyncContextState :=
  if sctx.state_property = 0 then
    .ok MAPI_E_SUCCESS ⟨MAPI_E_NOT_INITIALIZED⟩ sctx
  else
    .ok MAPI_E_SUCCESS ⟨MAPI_E_SUCCESS⟩
      { sctx with state_stream := sctx.state_stream ++ streamData }

/-- `EcDoRpc_RopSyncUploadStateStreamEnd` (oxcfxics.c:1911–2006): refuse
when idle; otherwise parse the scratch stream with the external
`IDSET_parse` (`none` = NULL on failure) and install the result by
replacement: `PidTagIdsetGiven` frees the old `idset_given` and stores the
parse result — calling `abort()` when a parsed set has zero ranges — while
`PidTagCnsetSeen`, `PidTagCnsetSeenFAI` and `PidTagCnsetRead` all set
`single` on the parsed set and store it into the shared `cnset_seen` slot.
The pending property and scratch stream are cleared; the reply's error
code is never touched on this path. -/
def EcDoRpc_RopSyncUploadStateStreamEnd
    (IDSET_parse : List Nat → Option idsetRep) (sctx : SyncContextState) :
    RopResult UploadReply SyncContextState :=
  if sctx.state_property = 0 then
    .ok MAPI_E_SUCCESS ⟨MAPI_E_NOT_INITIALIZED⟩ sctx
  else
    let parsed := IDSET_parse sctx.state_stream
    if sctx.state_property = PidTagIdsetGiven then
      match parsed with
      | some i =>
        if i.range_count = 0 then .crash
        else
          .ok MAPI_E_SUCCESS ⟨MAPI_E_SUCCESS⟩
            { sctx with idset_given := some i, state_stream := [], state_property := 0 }
      | none =>
        .ok MAPI_E_SUCCESS ⟨MAPI_E_SUCCESS⟩
          { sctx with idset_given := none, state_stream := [], state_property := 0 }
    else if sctx.state_property = PidTagCnsetSeen
        ∨ sctx.state_property = PidTagCnsetSeenFAI
        ∨ sctx.state_property = PidTagCnsetRead then
      .ok MAPI_E_SUCCESS ⟨MAPI_E_SUCCESS⟩
        { sctx with
          cnset_seen := parsed.map (fun i => ({ i with single := true } : idsetRep)),
          state_stream := [], state_property := 0 }
    else
      .ok MAPI_E_SUCCESS ⟨MAPI_E_SUCCESS⟩
        { sctx with state_stream := [], state_property := 0 }

/-- `EcDoRpc_RopSyncImportMessageChange` (oxcfxics.c:1417–1506), from the
synccontext-resolution point: refuse non-mapistore parents (`NoSupport`);
translate the source key at position 0 of the property values, answering
`NotFound` when the replica GUID is unknown; then open the message, or
create it when opening fails, answering `NotFound` when both fail.  The
store outcomes are the external parameters `openOk`/`createOk`.  The
synccontext state is never written. -/
def EcDoRpc_RopSyncImportMessageChange (reg : ReplicaRegistry)
    (parentIsMapistore : Bool) (sourceKey : List Nat)
    (openOk createOk : Bool) (sctx : SyncContextState) :
    RopResult ImportMessageChangeReply SyncContextState :=
  if ¬ parentIsMapistore then
    .ok MAPI_E_SUCCESS ⟨MAPI_E_NO_SUPPORT, 0⟩ sctx
  else
    match oxcfxics_fmid_from_source_key reg sourceKey with
    | none => .ok MAPI_E_SUCCESS ⟨MAPI_E_NOT_FOUND, 0⟩ sctx
    | some _ =>
      if openOk then .ok MAPI_E_SUCCESS ⟨MAPI_E_SUCCESS, 0⟩ sctx
      else if createOk then .ok MAPI_E_SUCCESS ⟨MAPI_E_SUCCESS, 0⟩ sctx
      else .ok MAPI_E_SUCCESS ⟨MAPI_E_NOT_FOUND, 0⟩ sctx

/-- `EcDoRpc_RopSyncImportDeletes` (oxcfxics.c:1650–1744): hierarchy
deletes and non-mapistore stores answer `InvalidObject`; otherwise each
binary of the array that translates to an FMID is deleted from the store
(failures are only logged).  `flagsHard` selects the delete kind and does
not affect the reply. -/
def EcDoRpc_RopSyncImportDeletes (reg : ReplicaRegistry)
    (flagsHierarchy flagsHard : Bool) (isMapistore : Bool)
    (bins : List (List Nat)) (sctx : SyncContextState) :
    RopResult ImportDeletesReply SyncContextState :=
  if flagsHierarchy then
    .ok MAPI_E_SUCCESS ⟨MAPI_E_INVALID_OBJECT, []⟩ sctx
  else if ¬ isMapistore then
    .ok MAPI_E_SUCCESS ⟨MAPI_E_INVALID_OBJECT, []⟩ sctx
  else
    .ok MAPI_E_SUCCESS
      ⟨MAPI_E_SUCCESS, bins.filterMap (oxcfxics_fmid_from_source_key reg)⟩ sctx

/-- The FTCONTEXT path of `EcDoRpc_RopFastTransferSourceGetBuffer` as a
handler: resolve the 0xBABE size and step; the function's C return value
is `MAPI_E_SUCCESS` (oxcfxics.c:1168) on every returning path. -/
def EcDoRpc_RopFastTransferSourceGetBuffer_ft (ctx : FtStreamCtx)
    (reqSize maxSize : Nat) : RopResult GetBufferReply FtStreamCtx :=
  let r := ftGetBufferStep ctx (resolveBufferSize reqSize maxSize)
  .ok MAPI_E_SUCCESS r.1 r.2

/-- A concrete synccontext armed for a `PidTagIdsetGiven` state upload,
holding previously installed sets and three buffered bytes. -/
def sctxArmedGiven : SyncContextState where
  request := ⟨true, true, false, false, false, false, false⟩
  properties := []
  idset_given := some ⟨false, 3⟩
  cnset_seen := some ⟨true, 2⟩
  state_property := PidTagIdsetGiven
  state_stream := [1, 2, 3]
  is_collector := false

/-- Claim C5, counterexample: when `IDSET_parse` fails (returns NULL) on
the armed `PidTagIdsetGiven` upload, `SyncUploadStateStreamEnd` does not
abort with an error: it replies with `error_code = MAPI_E_SUCCESS`, frees
the previously stored `idset_given` (which held a set) and installs the
null result. -/
theorem syncUploadStateStreamEnd_malformed_replies_success :
    EcDoRpc_RopSyncUploadStateStreamEnd (fun _ => none) sctxArmedGiven
      = .ok MAPI_E_SUCCESS ⟨MAPI_E_SUCCESS⟩
          { sctxArmedGiven with
            idset_given := none, state_stream := [], state_property := 0 }
      ∧ sctxArmedGiven.idset_given = some ⟨false, 3⟩ := by
  constructor
  · rfl
  · rfl

/-- Claim C5, amended: a failed `IDSET_parse` during
`SyncUploadStateStreamEnd` is not surfaced: the RPC replies Success, frees
the previously stored set of the armed slot, installs the null parse
result, and clears the pending upload; the other slot and the remaining
session fields are untouched (the returned state differs from the input
only in the armed slot, the scratch stream and the pending property). -/
theorem syncUploadStateStreamEnd_parse_failure_spec
    (IDSET_parse : List Nat → Option idsetRep) (s1 s2 : SyncContextState)
    (h1 : s1.state_property = PidTagIdsetGiven)
    (hf1 : IDSET_parse s1.state_stream = none)
    (h2 : s2.state_property = PidTagCnsetSeen ∨ s2.state_property = PidTagCnsetSeenFAI
      ∨ s2.state_property = PidTagCnsetRead)
    (hf2 : IDSET_parse s2.state_stream = none) :
    EcDoRpc_RopSyncUploadStateStreamEnd IDSET_parse s1
      = .ok MAPI_E_SUCCESS ⟨MAPI_E_SUCCESS⟩
          { s1 with idset_given := none, state_stream := [], state_property := 0 }
    ∧ EcDoRpc_RopSyncUploadStateStreamEnd IDSET_parse s2
      = .ok MAPI_E_SUCCESS ⟨MAPI_E_SUCCESS⟩
          { s2 with cnset_seen := none, state_stream := [], state_property := 0 } := by
  constructor
  · unfold EcDoRpc_RopSyncUploadStateStreamEnd
    rw [if_neg (by rw [h1]; unfold PidTagIdsetGiven; omega)]
    rw [hf1, if_pos h1]
  · unfold EcDoRpc_RopSyncUploadStateStreamEnd
    have hne0 : ¬ s2.state_property = 0 := by
      rcases h2 with h | h | h <;>
        (rw [h]; simp [PidTagCnsetSeen, PidTagCnsetSeenFAI, PidTagCnsetRead])
    have hnegiven : ¬ s2.state_property = PidTagIdsetGiven := by
      rcases h2 with h | h | h <;>
        (rw [h]
         simp [PidTagIdsetGiven, PidTagCnsetSeen, PidTagCnsetSeenFAI, PidTagCnsetRead])
    rw [if_neg hne0, hf2, if_neg hnegiven, if_pos h2]
    rfl

/-- A concrete synccontext armed for a `PidTagCnsetSeen` upload. -/
def sctxArmedSeen : SyncContextState :=
  { sctxArmedGiven with state_property := PidTagCnsetSeen }

/-- Witness for the amended C5 on concrete armed contexts and a parser
that always fails. -/
theorem syncUploadStateStreamEnd_parse_failure_spec_witness :
    EcDoRpc_RopSyncUploadStateStreamEnd (fun _ => none) sctxArmedGiven
      = .ok MAPI_E_SUCCESS ⟨MAPI_E_SUCCESS⟩
          { sctxArmedGiven with
            idset_given := none, state_stream := [], state_property := 0 }
    ∧ EcDoRpc_RopSyncUploadStateStreamEnd (fun _ => none) sctxArmedSeen
      = .ok MAPI_E_SUCCESS ⟨MAPI_E_SUCCESS⟩
          { sctxArmedSeen with
            cnset_seen := none, state_stream := [], state_property := 0 } :=
  syncUploadStateStreamEnd_parse_failure_spec (fun _ => none) sctxArmedGiven
    sctxArmedSeen rfl rfl (Or.inl rfl) rfl

/-- The End–Begin–Continue–End sequence of state uploads on one session:
finish the pending upload with `parse1`, arm property `p2`, feed `data`,
finish with `parse2`. -/
def uploadStateSequence (parse1 parse2 : List Nat → Option idsetRep)
    (sctx : SyncContextState) (p2 : Nat) (data : List Nat) :
    RopResult UploadReply SyncContextState :=
  match EcDoRpc_RopSyncUploadStateStreamEnd parse1 sctx with
  | .crash => .crash
  | .ok _ _ c1 =>
    match EcDoRpc_RopSyncUploadStateStreamBegin c1 p2 with
    | .crash => .crash
    | .ok _ _ c2 =>
      match EcDoRpc_RopSyncUploadStateStreamContinue c2 data with
      | .crash => .crash
      | .ok _ _ c3 => EcDoRpc_RopSyncUploadStateStreamEnd parse2 c3

/-- Claim C9: `SyncUploadStateStreamEnd` installs by replacement and the
three change-number state properties share the session's single
`cnset_seen` slot.  Finishing an upload armed for any
`p1 ∈ {PidTagCnsetSeen, PidTagCnsetSeenFAI, PidTagCnsetRead}` overwrites
`cnset_seen` with the parse result (single flag set), regardless of the
previously stored set; a subsequent upload of any `p2` of the three
overwrites it again with the second parse result, discarding the first,
and never touches `idset_given`. -/
theorem syncUploadStateStreamEnd_cn_slot_replacement
    (parse1 parse2 : List Nat → Option idsetRep) (sctx : SyncContextState)
    (p1 p2 : Nat) (s1 s2 : idsetRep) (data : List Nat)
    (hp1 : p1 = PidTagCnsetSeen ∨ p1 = PidTagCnsetSeenFAI ∨ p1 = PidTagCnsetRead)
    (hp2 : p2 = PidTagCnsetSeen ∨ p2 = PidTagCnsetSeenFAI ∨ p2 = PidTagCnsetRead)
    (harm : sctx.state_property = p1)
    (hparse1 : parse1 sctx.state_stream = some s1)
    (hparse2 : parse2 data = some s2) :
    EcDoRpc_RopSyncUploadStateStreamEnd parse1 sctx
      = .ok MAPI_E_SUCCESS ⟨MAPI_E_SUCCESS⟩
          { sctx with
            cnset_seen := some ({ s1 with single := true } : idsetRep),
            state_stream := [], state_property := 0 }
    ∧ uploadStateSequence parse1 parse2 sctx p2 data
      = .ok MAPI_E_SUCCESS ⟨MAPI_E_SUCCESS⟩
          { sctx with
            cnset_seen := some ({ s2 with single := true } : idsetRep),
            state_stream := [], state_property := 0 }
    ∧ ({ sctx with
          cnset_seen := some ({ s2 with single := true } : idsetRep),
          state_stream := [], state_property := 0 } :
        SyncContextState).idset_given = sctx.idset_given := by
  have hne0 : ¬ sctx.state_property = 0 := by
    rw [harm]
    rcases hp1 with h | h | h <;>
      (rw [h]; simp [PidTagCnsetSeen, PidTagCnsetSeenFAI, PidTagCnsetRead])
  have hnegiven : ¬ sctx.state_property = PidTagIdsetGiven := by
    rw [harm]
    rcases hp1 with h | h | h <;>
      (rw [h]
       simp [PidTagIdsetGiven, PidTagCnsetSeen, PidTagCnsetSeenFAI, PidTagCnsetRead])
  have hcn : sctx.state_property = PidTagCnsetSeen
      ∨ sctx.state_property = PidTagCnsetSeenFAI
      ∨ sctx.state_property = PidTagCnsetRead := by
    rw [harm]
    exact hp1
  have hfirst : EcDoRpc_RopSyncUploadStateStreamEnd parse1 sctx
      = .ok MAPI_E_SUCCESS ⟨MAPI_E_SUCCESS⟩
          { sctx with
            cnset_seen := some ({ s1 with single := true } : idsetRep),
            state_stream := [], state_property := 0 } := by
    unfold EcDoRpc_RopSyncUploadStateStreamEnd
    rw [if_neg hne0, hparse1, if_neg hnegiven, if_pos hcn]
    rfl
  refine ⟨hfirst, ?_, rfl⟩
  have hp2ne0 : ¬ p2 = 0 := by
    rcases hp2 with h | h | h <;>
      (rw [h]; simp [PidTagCnsetSeen, PidTagCnsetSeenFAI, PidTagCnsetRead])
  have hp2negiven : ¬ p2 = PidTagIdsetGiven := by
    rcases hp2 with h | h | h <;>
      (rw [h]
       simp [PidTagIdsetGiven, PidTagCnsetSeen, PidTagCnsetSeenFAI, PidTagCnsetRead])
  have hbegin : EcDoRpc_RopSyncUploadStateStreamBegin
      { sctx with
        cnset_seen := some ({ s1 with single := true } : idsetRep),
        state_stream := [], state_property := 0 } p2
      = .ok MAPI_E_SUCCESS ⟨MAPI_E_SUCCESS⟩
          { sctx with
            cnset_seen := some ({ s1 with single := true } : idsetRep),
            state_stream := [], state_property := p2 } := by
    unfold EcDoRpc_RopSyncUploadStateStreamBegin
    rw [if_neg (by simp)]
    rw [if_neg (by
      simp only [not_not]
      rcases hp2 with h | h | h
      · exact Or.inr (Or.inl h)
      · exact Or.inr (Or.inr (Or.inl h))
      · exact Or.inr (Or.inr (Or.inr h)))]
  have hcont : EcDoRpc_RopSyncUploadStateStreamContinue
      { sctx with
        cnset_seen := some ({ s1 with single := true } : idsetRep),
        state_stream := [], state_property := p2 } data
      = .ok MAPI_E_SUCCESS ⟨MAPI_E_SUCCESS⟩
          { sctx with
            cnset_seen := some ({ s1 with single := true } : idsetRep),
            state_stream := data, state_property := p2 } := by
    unfold EcDoRpc_RopSyncUploadStateStreamContinue
    rw [if_neg (by simpa using hp2ne0)]
    rfl
  have hlast : EcDoRpc_RopSyncUploadStateStreamEnd parse2
      { sctx with
        cnset_seen := some ({ s1 with single := true } : idsetRep),
        state_stream := data, state_property := p2 }
      = .ok MAPI_E_SUCCESS ⟨MAPI_E_SUCCESS⟩
          { sctx with
            cnset_seen := some ({ s2 with single := true } : idsetRep),
            state_stream := [], state_property := 0 } := by
    unfold EcDoRpc_RopSyncUploadStateStreamEnd
    rw [if_neg (by simpa using hp2ne0)]
    rw [show ({ sctx with
        cnset_seen := some ({ s1 with single := true } : idsetRep),
        state_stream := data, state_property := p2 } :
      SyncContextState).state_stream = data from rfl, hparse2]
    rw [if_neg (by simpa using hp2negiven), if_pos (by simpa using hp2)]
    rfl
  simp only [uploadStateSequence, hfirst, hbegin, hcont, hlast]

/-- Witness for C9 at concrete parsers and the armed `PidTagCnsetSeen`
context, re-uploading under `PidTagCnsetRead`. -/
theorem syncUploadStateStreamEnd_cn_slot_replacement_witness :
    EcDoRpc_RopSyncUploadStateStreamEnd (fun _ => some ⟨false, 5⟩) sctxArmedSeen
      = .ok MAPI_E_SUCCESS ⟨MAPI_E_SUCCESS⟩
          { sctxArmedSeen with
            cnset_seen := some ({ (⟨false, 5⟩ : idsetRep) with single := true } : idsetRep),
            state_stream := [], state_property := 0 }
    ∧ uploadStateSequence (fun _ => some ⟨false, 5⟩) (fun _ => some ⟨false, 9⟩)
        sctxArmedSeen PidTagCnsetRead [7]
      = .ok MAPI_E_SUCCESS ⟨MAPI_E_SUCCESS⟩
          { sctxArmedSeen with
            cnset_seen := some ({ (⟨false, 9⟩ : idsetRep) with single := true } : idsetRep),
            state_stream := [], state_property := 0 }
    ∧ ({ sctxArmedSeen with
          cnset_seen := some ({ (⟨false, 9⟩ : idsetRep) with single := true } : idsetRep),
          state_stream := [], state_property := 0 } :
        SyncContextState).idset_given = sctxArmedSeen.idset_given :=
  syncUploadStateStreamEnd_cn_slot_replacement (fun _ => some ⟨false, 5⟩)
    (fun _ => some ⟨false, 9⟩) sctxArmedSeen PidTagCnsetSeen PidTagCnsetRead
    ⟨false, 5⟩ ⟨false, 9⟩ [7] (Or.inl rfl) (Or.inr (Or.inr rfl)) rfl rfl rfl

/-- Claim C8: a `SyncImportMessageChange` whose source key carries an
unknown replica GUID replies `NotFound` and returns the session state
unchanged, and a subsequent import on the same session state with a
resolvable source key and a successful store open replies Success. -/
theorem syncImportMessageChange_unknown_replica (reg : ReplicaRegistry)
    (sk1 sk2 : List Nat) (sctx : SyncContextState) (o1 c1 c2 : Bool) (rid : Nat)
    (hunknown : reg.guidToReplid (sk1.take 16) = none)
    (hknown : reg.guidToReplid (sk2.take 16) = some rid) :
    EcDoRpc_RopSyncImportMessageChange reg true sk1 o1 c1 sctx
      = .ok MAPI_E_SUCCESS ⟨MAPI_E_NOT_FOUND, 0⟩ sctx
    ∧ EcDoRpc_RopSyncImportMessageChange reg true sk2 true c2 sctx
      = .ok MAPI_E_SUCCESS ⟨MAPI_E_SUCCESS, 0⟩ sctx := by
  constructor
  · simp [EcDoRpc_RopSyncImportMessageChange, oxcfxics_fmid_from_source_key, hunknown]
  · simp [EcDoRpc_RopSyncImportMessageChange, oxcfxics_fmid_from_source_key, hknown]

/-- Witness for C8 on the concrete registry: an all-zero source key is
unknown, a `regOne` key resolves, both on the same session state. -/
theorem syncImportMessageChange_unknown_replica_witness :
    EcDoRpc_RopSyncImportMessageChange regOne true (List.replicate 22 0) false false
        sctxArmedGiven
      = .ok MAPI_E_SUCCESS ⟨MAPI_E_NOT_FOUND, 0⟩ sctxArmedGiven
    ∧ EcDoRpc_RopSyncImportMessageChange regOne true
        (List.replicate 16 7 ++ [1, 0, 0, 0, 0, 0]) true false sctxArmedGiven
      = .ok MAPI_E_SUCCESS ⟨MAPI_E_SUCCESS, 0⟩ sctxArmedGiven :=
  syncImportMessageChange_unknown_replica regOne (List.replicate 22 0)
    (List.replicate 16 7 ++ [1, 0, 0, 0, 0, 0]) sctxArmedGiven false false false 1
    (by decide) (by decide)

/-- The C return value of a handler run, `none` when the run aborts. -/
def cretOf {α σ : Type} : RopResult α σ → Option Nat
  | .ok c _ _ => some c
  | .crash => none

/-- Claim C10, amended: every modelled FX/ICS handler, on every execution
that completes (does not hit a fatal `abort()`), returns `MAPI_E_SUCCESS`
as its C return value; failures are reported only through the reply's
`error_code`. -/
theorem fxics_handlers_return_success :
    (∀ sctx p, cretOf (EcDoRpc_RopSyncUploadStateStreamBegin sctx p)
        = some MAPI_E_SUCCESS
      ∨ EcDoRpc_RopSyncUploadStateStreamBegin sctx p = .crash)
  ∧ (∀ sctx d, cretOf (EcDoRpc_RopSyncUploadStateStreamContinue sctx d)
        = some MAPI_E_SUCCESS
      ∨ EcDoRpc_RopSyncUploadStateStreamContinue sctx d = .crash)
  ∧ (∀ IDSET_parse sctx, cretOf (EcDoRpc_RopSyncUploadStateStreamEnd IDSET_parse sctx)
        = some MAPI_E_SUCCESS
      ∨ EcDoRpc_RopSyncUploadStateStreamEnd IDSET_parse sctx = .crash)
  ∧ (∀ reg pm sk o c sctx,
      cretOf (EcDoRpc_RopSyncImportMessageChange reg pm sk o c sctx)
        = some MAPI_E_SUCCESS
      ∨ EcDoRpc_RopSyncImportMessageChange reg pm sk o c sctx = .crash)
  ∧ (∀ reg fh fd im bins sctx,
      cretOf (EcDoRpc_RopSyncImportDeletes reg fh fd im bins sctx)
        = some MAPI_E_SUCCESS
      ∨ EcDoRpc_RopSyncImportDeletes reg fh fd im bins sctx = .crash)
  ∧ (∀ ctx r m, cretOf (EcDoRpc_RopFastTransferSourceGetBuffer_ft ctx r m)
        = some MAPI_E_SUCCESS
      ∨ EcDoRpc_RopFastTransferSourceGetBuffer_ft ctx r m = .crash) := by
  refine ⟨?_, ?_, ?_, ?_, ?_, ?_⟩
  · intro sctx p
    unfold EcDoRpc_RopSyncUploadStateStreamBegin
    split_ifs <;> simp [cretOf]
  · intro sctx d
    unfold EcDoRpc_RopSyncUploadStateStreamContinue
    split_ifs <;> simp [cretOf]
  · intro IDSET_parse sctx
    unfold EcDoRpc_RopSyncUploadStateStreamEnd
    by_cases h0 : sctx.state_property = 0
    · simp [h0, cretOf]
    · by_cases hg : sctx.state_property = PidTagIdsetGiven
      · cases hp : IDSET_parse sctx.state_stream with
        | none => simp [h0, hg, hp, cretOf, PidTagIdsetGiven]
        | some i =>
          by_cases hrc : i.range_count = 0
          · simp [h0, hg, hp, hrc, cretOf, PidTagIdsetGiven]
          · simp [h0, hg, hp, hrc, cretOf, PidTagIdsetGiven]
      · by_cases hcn : sctx.state_property = PidTagCnsetSeen
            ∨ sctx.state_property = PidTagCnsetSeenFAI
            ∨ sctx.state_property = PidTagCnsetRead
        · rcases hcn with h | h | h <;>
            simp [h0, hg, h, cretOf, PidTagIdsetGiven, PidTagCnsetSeen,
              PidTagCnsetSeenFAI, PidTagCnsetRead]
        · simp [h0, hg, hcn, cretOf]
  · intro reg pm sk o c sctx
    unfold EcDoRpc_RopSyncImportMessageChange
    by_cases hm : pm
    · cases hk : oxcfxics_fmid_from_source_key reg sk with
      | none => simp [hm, hk, cretOf]
      | some mid =>
        by_cases ho : o
        · simp [hm, hk, ho, cretOf]
        · by_cases hc : c
          · simp [hm, hk, ho, hc, cretOf]
          · simp [hm, hk, ho, hc, cretOf]
    · simp [hm, cretOf]
  · intro reg fh fd im bins sctx
    unfold EcDoRpc_RopSyncImportDeletes
    split_ifs <;> simp [cretOf]
  · intro ctx r m
    left
    rfl

/-- Claim C10, counterexample: `EcDoRpc_RopSyncUploadStateStreamEnd` does
not return at all — the source calls `abort()` — when the armed
`PidTagIdsetGiven` upload parses to a set with zero ranges, so it does not
return `MAPI_E_SUCCESS` on that call. -/
theorem syncUploadStateStreamEnd_abort_empty_set :
    EcDoRpc_RopSyncUploadStateStreamEnd (fun _ => some ⟨false, 0⟩) sctxArmedGiven
      = .crash
    ∧ cretOf (EcDoRpc_RopSyncUploadStateStreamEnd (fun _ => some ⟨false, 0⟩)
        sctxArmedGiven) ≠ some MAPI_E_SUCCESS := by
  exact ⟨rfl, by decide⟩
